import Mathlib

/-!
# Verification of the fly-tunnel-operator tunnel lifecycle

A shallow embedding, in Lean 4, of the tunnel lifecycle code of the
`fly-tunnel-operator` repository: the name deriver (`internal/tunnel/name.go`),
the resource-requirements resolver (`frpcResources`), and the lifecycle
manager's `Provision` / `Teardown` / `Update` sagas
(`internal/tunnel/manager.go`) together with the slice of the fly.io client
behaviour they rely on (`internal/flyio/client.go`).

Strings are modelled as Lean `String` (a list of characters); machine words
are `Nat` with explicit masking where the Go code works on `uint32`/`byte`;
the remote provider and the cluster API are modelled as explicit state records
threaded through the operations, with injectable per-step faults standing for
failing remote calls.  Go's `(value, error)` returns become `Except` /
`Option` values.
-/

namespace FlyTunnel

/-! ## Byte-level helpers: SHA-256, hex, UTF-8

`sanitizeName` (name.go) uses `crypto/sha256` and `encoding/hex`.  SHA-256 is
implemented here over `List Nat` bytes with 32-bit arithmetic done in `Nat`
masked to `2^32`.
-/

/-- Truncate to a 32-bit word, as Go's `uint32` arithmetic does implicitly. -/
def w32 (n : Nat) : Nat := n &&& 0xffffffff

/-- 32-bit right rotation. -/
def rotr (n x : Nat) : Nat := w32 ((x >>> n) ||| (x <<< (32 - n)))

/-- Big-endian bytes of `n`, `k` bytes wide (Go `binary.BigEndian`). -/
def toBytesBE : Nat → Nat → List Nat
  | 0, _ => []
  | k + 1, n => toBytesBE k (n >>> 8) ++ [n &&& 0xff]

/-- The SHA-256 round constants. -/
def sha256K : List Nat :=
  [1116352408, 1899447441, 3049323471, 3921009573, 961987163, 1508970993,
   2453635748, 2870763221, 3624381080, 310598401, 607225278, 1426881987,
   1925078388, 2162078206, 2614888103, 3248222580, 3835390401, 4022224774,
   264347078, 604807628, 770255983, 1249150122, 1555081692, 1996064986,
   2554220882, 2821834349, 2952996808, 3210313671, 3336571891, 3584528711,
   113926993, 338241895, 666307205, 773529912, 1294757372, 1396182291,
   1695183700, 1986661051, 2177026350, 2456956037, 2730485921, 2820302411,
   3259730800, 3345764771, 3516065817, 3600352804, 4094571909, 275423344,
   430227734, 506948616, 659060556, 883997877, 958139571, 1322822218,
   1537002063, 1747873779, 1955562222, 2024104815, 2227730452, 2361852424,
   2428436474, 2756734187, 3204031479, 3329325298]

/-- Message padding: append `0x80`, zeros to 56 mod 64, then the bit length. -/
def sha256Pad (msg : List Nat) : List Nat :=
  msg ++ 0x80 :: List.replicate ((119 - msg.length % 64) % 64) 0
      ++ toBytesBE 8 (msg.length * 8)

/-- Split a byte list into 64-byte blocks; structural recursion on a fuel
argument (each step consumes 64 bytes, so `l.length` steps always suffice). -/
def toBlocksF : Nat → List Nat → List (List Nat)
  | 0, _ => []
  | _, [] => []
  | fuel + 1, l => l.take 64 :: toBlocksF fuel (l.drop 64)

/-- Split a byte list into 64-byte blocks. -/
def toBlocks (l : List Nat) : List (List Nat) := toBlocksF l.length l

/-- Pack bytes into big-endian 32-bit words. -/
def bytesToWords : List Nat → List Nat
  | a :: b :: c :: d :: rest =>
      ((a <<< 24) ||| (b <<< 16) ||| (c <<< 8) ||| d) :: bytesToWords rest
  | _ => []

/-- σ₀ of the SHA-256 message schedule. -/
def smallSigma0 (x : Nat) : Nat := rotr 7 x ^^^ rotr 18 x ^^^ (x >>> 3)

/-- σ₁ of the SHA-256 message schedule. -/
def smallSigma1 (x : Nat) : Nat := rotr 17 x ^^^ rotr 19 x ^^^ (x >>> 10)

/-- One schedule extension step; `acc` holds the words most-recent-first. -/
def scheduleStep (acc : List Nat) : Nat :=
  w32 (acc.getD 15 0 + smallSigma0 (acc.getD 14 0) + acc.getD 6 0
      + smallSigma1 (acc.getD 1 0))

/-- Run `n` schedule extension steps. -/
def scheduleRun : Nat → List Nat → List Nat
  | 0, acc => acc
  | n + 1, acc => scheduleRun n (scheduleStep acc :: acc)

/-- The 64-word message schedule of one block (given its 16 words). -/
def sha256Schedule (ws : List Nat) : List Nat :=
  (scheduleRun 48 ws.reverse).reverse

/-- The eight working variables of the compression function. -/
structure Sha256State where
  a : Nat
  b : Nat
  c : Nat
  d : Nat
  e : Nat
  f : Nat
  g : Nat
  h : Nat

/-- One compression round, on a `(k, w)` pair. -/
def compressStep (s : Sha256State) (kw : Nat × Nat) : Sha256State :=
  let bigS1 := rotr 6 s.e ^^^ rotr 11 s.e ^^^ rotr 25 s.e
  let ch := (s.e &&& s.f) ^^^ ((s.e ^^^ 0xffffffff) &&& s.g)
  let temp1 := w32 (s.h + bigS1 + ch + kw.1 + kw.2)
  let bigS0 := rotr 2 s.a ^^^ rotr 13 s.a ^^^ rotr 22 s.a
  let maj := (s.a &&& s.b) ^^^ (s.a &&& s.c) ^^^ (s.b &&& s.c)
  let temp2 := w32 (bigS0 + maj)
  ⟨w32 (temp1 + temp2), s.a, s.b, s.c, w32 (s.d + temp1), s.e, s.f, s.g⟩

/-- Process one 64-byte block. -/
def sha256Block (s : Sha256State) (block : List Nat) : Sha256State :=
  let ws := sha256Schedule (bytesToWords block)
  let t := (sha256K.zip ws).foldl compressStep s
  ⟨w32 (s.a + t.a), w32 (s.b + t.b), w32 (s.c + t.c), w32 (s.d + t.d),
   w32 (s.e + t.e), w32 (s.f + t.f), w32 (s.g + t.g), w32 (s.h + t.h)⟩

/-- The SHA-256 initial state. -/
def sha256Init : Sha256State :=
  ⟨1779033703, 3144134277, 1013904242, 2773480762,
   1359893119, 2600822924, 528734635, 1541459225⟩

/-- SHA-256 of a byte list, as its 32 digest bytes (`crypto/sha256.Sum256`). -/
def sha256 (msg : List Nat) : List Nat :=
  let s := (toBlocks (sha256Pad msg)).foldl sha256Block sha256Init
  toBytesBE 4 s.a ++ toBytesBE 4 s.b ++ toBytesBE 4 s.c ++ toBytesBE 4 s.d ++
  toBytesBE 4 s.e ++ toBytesBE 4 s.f ++ toBytesBE 4 s.g ++ toBytesBE 4 s.h

/-- Lowercase hex digit for a nibble, as Go's `hextable` lookup.  (`Nat.digitChar`
maps 0–15 to exactly `0`–`9`, `a`–`f`; the arguments below are masked to 4 bits
so the table index stays in range, as the Go `byte` type guarantees.) -/
def hexDigitChar (n : Nat) : Char := Nat.digitChar n

/-- `encoding/hex.EncodeToString` over modelled bytes. -/
def hexEncode : List Nat → List Char
  | [] => []
  | b :: rest => hexDigitChar ((b >>> 4) &&& 15) :: hexDigitChar (b &&& 15) :: hexEncode rest

/-- UTF-8 encoding of one character (Go `[]byte(string)` conversion). -/
def utf8Char (c : Char) : List Nat :=
  let n := c.toNat
  if n < 0x80 then [n]
  else if n < 0x800 then [0xc0 ||| (n >>> 6), 0x80 ||| (n &&& 0x3f)]
  else if n < 0x10000 then
    [0xe0 ||| (n >>> 12), 0x80 ||| ((n >>> 6) &&& 0x3f), 0x80 ||| (n &&& 0x3f)]
  else
    [0xf0 ||| (n >>> 18), 0x80 ||| ((n >>> 12) &&& 0x3f),
     0x80 ||| ((n >>> 6) &&& 0x3f), 0x80 ||| (n &&& 0x3f)]

/-- UTF-8 bytes of a character list. -/
def utf8Bytes : List Char → List Nat
  | [] => []
  | c :: rest => utf8Char c ++ utf8Bytes rest

/-! ## The name deriver (`internal/tunnel/name.go`) -/

/-- Maximum length for fly.io app names and Kubernetes label values. -/
def maxLabelLen : Nat := 63

/-- Is `c` in `[a-z0-9-]` (the character test of `sanitizeName`'s loop)? -/
def isNameChar (c : Char) : Bool :=
  ('a' ≤ c && c ≤ 'z') || ('0' ≤ c && c ≤ '9') || c = '-'

/-- Character lowercasing, as `strings.ToLower` acts on ASCII.  (The Go
function applies full Unicode simple case mapping; this model restricts it to
ASCII.  No theorem below depends on the mapping beyond its being a
character-level function: any character still uppercase after it falls outside
`[a-z0-9-]` and is mapped to `-`.) -/
def asciiToLower (c : Char) : Char :=
  if 'A' ≤ c && c ≤ 'Z' then Char.ofNat (c.toNat + 32) else c

/-- The per-character step of `sanitizeName`'s write loop. -/
def sanitizeChar (c : Char) : Char := if isNameChar c then c else '-'

/-- Leftmost non-overlapping `strings.ReplaceAll(s, "--", "-")`. -/
def replaceDoubleDash : List Char → List Char
  | '-' :: '-' :: rest => '-' :: replaceDoubleDash rest
  | c :: rest => c :: replaceDoubleDash rest
  | [] => []

/-- `strings.Contains(s, "--")`. -/
def hasDoubleDash : List Char → Bool
  | '-' :: '-' :: _ => true
  | _ :: rest => hasDoubleDash rest
  | [] => false

/-- The `for strings.Contains .. ReplaceAll ..` loop, with structural fuel:
each pass with a `--` present strictly shortens the list, so `l.length` passes
always reach the fixpoint. -/
def collapseDashesF : Nat → List Char → List Char
  | 0, l => l
  | fuel + 1, l => if hasDoubleDash l then collapseDashesF fuel (replaceDoubleDash l) else l

/-- Collapse consecutive dashes (the ReplaceAll loop run to fixpoint). -/
def collapseDashes (l : List Char) : List Char := collapseDashesF l.length l

/-- Drop the trailing run of dashes, structurally: a tail that trims to
nothing is dropped together with a dash in front of it. -/
def dropTrailingDashes : List Char → List Char
  | [] => []
  | c :: rest =>
    match dropTrailingDashes rest with
    | [] => if c = '-' then [] else [c]
    | r => c :: r

/-- `strings.Trim(s, "-")`: the leading run of dashes, then the trailing run. -/
def trimDashes (l : List Char) : List Char :=
  dropTrailingDashes (l.dropWhile (· = '-'))

/-- `strings.TrimRight(s, "-")`. -/
def trimRightDashes (l : List Char) : List Char :=
  dropTrailingDashes l

/-- The sanitized-but-untruncated string: lowercase, map out-of-charset
characters to `-`, collapse `--`, trim edge dashes. -/
def sanitizeTrimmed (lowered : List Char) : List Char :=
  trimDashes (collapseDashes (lowered.map sanitizeChar))

/-- The 8-hex-character truncation suffix: hex of the first 4 bytes of the
SHA-256 digest of the (lowercased) pre-truncation string. -/
def hashSuffix (lowered : List Char) : List Char :=
  hexEncode ((sha256 (utf8Bytes lowered)).take 4)

/-- `sanitizeName` of name.go, at the character-list level. -/
def sanitizeChars (name : List Char) : List Char :=
  let lowered := name.map asciiToLower
  let sanitized := sanitizeTrimmed lowered
  if sanitized.length ≤ maxLabelLen then sanitized
  else
    let suffix := hashSuffix lowered
    let truncated := trimRightDashes (sanitized.take (maxLabelLen - suffix.length - 1))
    truncated ++ '-' :: suffix

/-- `sanitizeName`: a string safe for fly.io app names and Kubernetes label
values — lowercase alphanumerics and dashes, at most 63 characters, with a
hash suffix preserving uniqueness under truncation. -/
def sanitizeName (s : String) : String := String.mk (sanitizeChars s.data)

/-! ## The intent object (`corev1.Service` as the manager reads it) -/

/-- One declared service port (`corev1.ServicePort`): the lifecycle code reads
the port number and, through the config generator, its name and protocol. -/
structure ServicePort where
  portName : String
  protocol : String
  port : Int
  deriving DecidableEq

/-- The slice of a `corev1.Service` the tunnel lifecycle reads and writes:
identity, the annotation bag, declared ports, and the deletion/finalizer
state used by the reconciler. -/
structure Service where
  ns : String
  name : String
  annotations : List (String × String)
  ports : List ServicePort
  deleting : Bool := false
  finalizers : List String := []
  deriving DecidableEq

/-- Two-valued Go map read: `v, ok := svc.Annotations[key]`. -/
def annLookup (svc : Service) (key : String) : Option String :=
  (svc.annotations.find? (fun kv => kv.1 = key)).map (·.2)

/-- One-valued Go map read: `svc.Annotations[key]` (zero value on miss). -/
def annGet (svc : Service) (key : String) : String :=
  (annLookup svc key).getD ""

/-- `tunnelNameForService`. -/
def tunnelNameForService (svc : Service) : String :=
  sanitizeName ("frp-" ++ svc.ns ++ "-" ++ svc.name)

/-- `flyAppNameForService`. -/
def flyAppNameForService (svc : Service) : String :=
  sanitizeName ("fly-tunnel-" ++ svc.ns ++ "-" ++ svc.name)

/-- `frpcDeploymentNameForService`. -/
def frpcDeploymentNameForService (svc : Service) : String :=
  sanitizeName ("frpc-" ++ svc.ns ++ "-" ++ svc.name)

/-- `serviceLabelValue`. -/
def serviceLabelValue (svc : Service) : String :=
  sanitizeName (svc.ns ++ "-" ++ svc.name)

/-! ## The resource requirements resolver (`frpcResources`)

`frpcResources` calls `k8s.io/apimachinery`'s `resource.ParseQuantity`, a
vendored library the spec scopes out as an external collaborator.  The model
below parses the quantity grammar `sign? digits ('.' digits)? suffix?` with
the standard decimal/binary SI suffixes or a decimal exponent; the theorems
about `frpcResources` hold for any parser, they only inspect whether parsing
succeeded.
-/

/-- Is `c` an ASCII digit? -/
def isDigitChar (c : Char) : Bool := '0' ≤ c && c ≤ '9'

/-- The plain SI suffixes `resource.ParseQuantity` accepts (plus none). -/
def quantitySuffixes : List String :=
  ["", "n", "u", "m", "k", "M", "G", "T", "P", "E", "Ki", "Mi", "Gi", "Ti", "Pi", "Ei"]

/-- A decimal-exponent tail: optional sign, then at least one digit. -/
def expTail (l : List Char) : Bool :=
  match l with
  | '+' :: rest => !rest.isEmpty && rest.all isDigitChar
  | '-' :: rest => !rest.isEmpty && rest.all isDigitChar
  | rest => !rest.isEmpty && rest.all isDigitChar

/-- A valid quantity suffix: an SI suffix or `e`/`E` with a signed exponent. -/
def validQuantitySuffix (l : List Char) : Bool :=
  quantitySuffixes.contains (String.mk l) ||
    (match l with
     | 'e' :: rest => expTail rest
     | 'E' :: rest => expTail rest
     | _ => false)

/-- A parsed resource quantity (kept in parsed form; the lifecycle code only
stores quantities, it never computes with them). -/
structure Quantity where
  neg : Bool
  digits : List Char
  frac : List Char
  suffix : String
  deriving DecidableEq

/-- `resource.ParseQuantity`: `sign? digits ('.' digits)? suffix?` with at
least one integer digit and a recognized suffix. -/
def parseQuantity (s : String) : Option Quantity :=
  let cs := s.data
  let negAndRest : Bool × List Char :=
    match cs with
    | '-' :: rest => (true, rest)
    | '+' :: rest => (false, rest)
    | rest => (false, rest)
  let digs := negAndRest.2.takeWhile isDigitChar
  let afterDigs := negAndRest.2.dropWhile isDigitChar
  let fracAndRest : List Char × List Char :=
    match afterDigs with
    | '.' :: rest => (rest.takeWhile isDigitChar, rest.dropWhile isDigitChar)
    | rest => ([], rest)
  if digs.isEmpty then none
  else if validQuantitySuffix fracAndRest.2 then
    some ⟨negAndRest.1, digs, fracAndRest.1, String.mk fracAndRest.2⟩
  else none

/-- Decidable equality for `Except`, so concrete runs of the fallible
operations can be checked by `decide`. -/
instance {ε α : Type} [DecidableEq ε] [DecidableEq α] : DecidableEq (Except ε α) :=
  fun x y =>
    match x, y with
    | .ok a, .ok b =>
      if h : a = b then .isTrue (by rw [h]) else .isFalse (by simp [h])
    | .error a, .error b =>
      if h : a = b then .isTrue (by rw [h]) else .isFalse (by simp [h])
    | .ok _, .error _ => .isFalse (by simp)
    | .error _, .ok _ => .isFalse (by simp)

/-- Annotation keys for overriding frpc pod resources. -/
def AnnotationFrpcCPURequest : String := "fly-tunnel-operator.dev/frpc-cpu-request"

/-- Annotation key for the frpc CPU limit override. -/
def AnnotationFrpcCPULimit : String := "fly-tunnel-operator.dev/frpc-cpu-limit"

/-- Annotation key for the frpc memory request override. -/
def AnnotationFrpcMemoryRequest : String := "fly-tunnel-operator.dev/frpc-memory-request"

/-- Annotation key for the frpc memory limit override. -/
def AnnotationFrpcMemoryLimit : String := "fly-tunnel-operator.dev/frpc-memory-limit"

/-- A `corev1.ResourceList` restricted to the two resource names the code
touches (cpu, memory); `none` = key absent from the map. -/
structure ResourceList where
  cpu : Option Quantity := none
  memory : Option Quantity := none
  deriving DecidableEq

/-- `corev1.ResourceRequirements`. -/
structure ResourceRequirements where
  requests : ResourceList
  limits : ResourceList
  deriving DecidableEq

/-- `defaultFrpcResources`: 10m/32Mi requests, 128Mi memory limit, no CPU
limit. -/
def defaultFrpcResources : ResourceRequirements :=
  { requests := { cpu := parseQuantity "10m", memory := parseQuantity "32Mi" }
    limits := { memory := parseQuantity "128Mi" } }

/-- Where an override annotation lands in the requirements
(`resourceAnnotationOverrides`'s `target`/`resourceName` pair). -/
inductive OverrideTarget
  | requestsCPU
  | limitsCPU
  | requestsMemory
  | limitsMemory
  deriving DecidableEq

/-- Apply one override to the requirements. -/
def applyOverride (res : ResourceRequirements) (t : OverrideTarget) (q : Quantity) :
    ResourceRequirements :=
  match t with
  | .requestsCPU => { res with requests := { res.requests with cpu := some q } }
  | .limitsCPU => { res with limits := { res.limits with cpu := some q } }
  | .requestsMemory => { res with requests := { res.requests with memory := some q } }
  | .limitsMemory => { res with limits := { res.limits with memory := some q } }

/-- `resourceAnnotationOverrides`, in source order. -/
def resourceAnnotationOverrides : List (String × OverrideTarget) :=
  [(AnnotationFrpcCPURequest, .requestsCPU),
   (AnnotationFrpcCPULimit, .limitsCPU),
   (AnnotationFrpcMemoryRequest, .requestsMemory),
   (AnnotationFrpcMemoryLimit, .limitsMemory)]

/-- The error text of `frpcResources`'s parse failure
(`fmt.Errorf("parsing annotation %s=%q: %w", ...)`). -/
def frpcResourcesErr (key v : String) : String :=
  "parsing annotation " ++ key ++ "=\x22" ++ v ++ "\x22: unable to parse quantity"

/-- The loop body of `frpcResources` over the override table. -/
def frpcResourcesGo (svc : Service) :
    List (String × OverrideTarget) → ResourceRequirements →
    Except String ResourceRequirements
  | [], res => .ok res
  | (key, t) :: rest, res =>
    match annLookup svc key with
    | none => frpcResourcesGo svc rest res
    | some v =>
      if v = "" then frpcResourcesGo svc rest res
      else
        match parseQuantity v with
        | none => .error (frpcResourcesErr key v)
        | some q => frpcResourcesGo svc rest (applyOverride res t q)

/-- `frpcResources`: resource requirements for the frpc container, defaults
overridden by per-service annotations, failing on an unparsable override. -/
def frpcResources (svc : Service) : Except String ResourceRequirements :=
  frpcResourcesGo svc resourceAnnotationOverrides defaultFrpcResources

/-! ## Annotation keys and operator configuration (`manager.go`) -/

/-- `AnnotationMachineID`. -/
def AnnotationMachineID : String := "fly-tunnel-operator.dev/machine-id"

/-- `AnnotationFrpcDeployment`. -/
def AnnotationFrpcDeployment : String := "fly-tunnel-operator.dev/frpc-deployment"

/-- `AnnotationIPID`. -/
def AnnotationIPID : String := "fly-tunnel-operator.dev/ip-id"

/-- `AnnotationPublicIP`. -/
def AnnotationPublicIP : String := "fly-tunnel-operator.dev/public-ip"

/-- `AnnotationFlyApp`. -/
def AnnotationFlyApp : String := "fly-tunnel-operator.dev/fly-app"

/-- `AnnotationFlyRegion`. -/
def AnnotationFlyRegion : String := "fly-tunnel-operator.dev/fly-region"

/-- `AnnotationFlyMachineSize`. -/
def AnnotationFlyMachineSize : String := "fly-tunnel-operator.dev/fly-machine-size"

/-- Operator-level configuration (`tunnel.Config`). -/
structure Config where
  flyOrg : String
  flyRegion : String
  flyMachineSize : String
  frpsImage : String
  frpcImage : String
  operatorNamespace : String
  deriving DecidableEq

/-- `flyio.GuestConfig`. -/
structure GuestConfig where
  cpuKind : String
  cpus : Nat
  memoryMB : Nat
  deriving DecidableEq

/-- `guestForSize`: the fixed size-to-resources lookup table. -/
def guestForSize (size : String) : GuestConfig :=
  if size = "shared-cpu-2x" then ⟨"shared", 2, 512⟩
  else if size = "shared-cpu-4x" then ⟨"shared", 4, 1024⟩
  else if size = "performance-1x" then ⟨"performance", 1, 2048⟩
  else if size = "performance-2x" then ⟨"performance", 2, 4096⟩
  else ⟨"shared", 1, 256⟩

/-- `flyio.Port` (an external port mapping of a machine service). -/
structure FlyPort where
  port : Int
  deriving DecidableEq

/-- `flyio.MachineService`. -/
structure MachineService where
  protocol : String
  internalPort : Int
  ports : List FlyPort
  deriving DecidableEq

/-- `frp.DefaultServerPort`, the frp control-channel port.  The `internal/frp`
package is not under src/; manager.go's comment ("Port 7000 for frp control
channel") and the repository's tests fix the value at 7000. -/
def defaultServerPort : Int := 7000

/-- The compute-instance services list Provision and Update build: the fixed
control-channel entry first, then one entry per declared port (the Go
append loop). -/
def machineServicesFor (ports : List ServicePort) : List MachineService :=
  ⟨"tcp", defaultServerPort, [⟨defaultServerPort⟩]⟩ ::
    ports.map (fun p => ⟨"tcp", p.port, [⟨p.port⟩]⟩)

/-- Modelled from the spec: `frp.GenerateServerConfig` — a pure function of
the control port rendering the tunnel-server configuration text
(`internal/frp` is not under src/). -/
def generateServerConfig (port : Int) : String :=
  "bindPort = " ++ toString port

/-- Modelled from the spec: `frp.GenerateClientConfig` — a pure function of
the declared ports, the remote address and the control port, with one
forwarding entry per declared port (`internal/frp` is not under src/). -/
def generateClientConfig (svc : Service) (serverAddr : String) (port : Int) : String :=
  "serverAddr = " ++ serverAddr ++ "\nserverPort = " ++ toString port ++
    String.join (svc.ports.map (fun p =>
      "\n[[proxies]]\ntype = " ++ p.protocol ++ "\nremotePort = " ++ toString p.port))

/-! ## The remote provider state -/

/-- A fly.io Machine as the lifecycle code sees it. -/
structure MachineRec where
  app : String
  id : String
  instanceID : String
  machineName : String
  region : String
  image : String
  guest : Option GuestConfig
  services : List MachineService
  envConfig : String
  deriving DecidableEq

/-- An allocated IP address. -/
structure IPRec where
  app : String
  id : String
  address : String
  deriving DecidableEq

/-- The remote provider's resource state. -/
structure FlyState where
  apps : List String
  machines : List MachineRec
  ips : List IPRec
  deriving DecidableEq

/-- A remote-provider call, for tracing creation/compensation order. -/
inductive FlyOp
  | createApp (app : String)
  | createMachine (app id : String)
  | waitMachine (app id : String)
  | allocateIP (app id : String)
  | releaseIP (app id : String)
  | deleteMachine (app id : String)
  | deleteApp (app : String)
  deriving DecidableEq

/-- The compensating delete for a resource-creating call (§9: the saga's
(action, compensation) pairing). -/
def compensationOf : FlyOp → FlyOp
  | .createApp a => .deleteApp a
  | .createMachine a id => .deleteMachine a id
  | .allocateIP a id => .releaseIP a id
  | op => op

/-- Does this call create a remote resource (as opposed to waiting/deleting)? -/
def isResourceCreating : FlyOp → Bool
  | .createApp _ => true
  | .createMachine _ _ => true
  | .allocateIP _ _ => true
  | _ => false

/-! ## The cluster state -/

/-- The frpc ConfigMap (its `frpc.toml` payload and service label). -/
structure KubeConfigMap where
  name : String
  data : String
  serviceLabel : String
  deriving DecidableEq

/-- The frpc Deployment: the fields the lifecycle code writes. -/
structure KubeDeployment where
  name : String
  image : String
  configMapName : String
  templateAnnotations : List (String × String)
  deriving DecidableEq

/-- The in-cluster state owned by the operator. -/
structure KubeState where
  configMaps : List KubeConfigMap
  deployments : List KubeDeployment
  deriving DecidableEq

/-- The combined remote + cluster state a lifecycle call acts on. -/
structure World where
  fly : FlyState
  kube : KubeState
  deriving DecidableEq

/-- Association-list write: `m[k] = v` on a Go map. -/
def setAssoc (l : List (String × String)) (k v : String) : List (String × String) :=
  if l.any (fun kv => kv.1 = k) then l.map (fun kv => if kv.1 = k then (k, v) else kv)
  else l ++ [(k, v)]

/-! ## Remote-provider calls

Each call takes an injectable fault (standing for a failing network call /
non-2xx status) and the provider state.  Deletions are modelled
non-cascading: `DeleteApp` removes only the app entry, so a rollback or
teardown empties the state only by issuing every compensating delete
itself — which is exactly what manager.go does.
-/

/-- The error `Client.CreateApp` builds when the remote apps endpoint answers
the duplicate-create with 409 Conflict (`fakefly.Server.createApp` writes
"app already exists" with `http.StatusConflict`; `Client.CreateApp` accepts
only 200/201 and otherwise formats `"creating app: status %d, body: %s"`). -/
def appExistsErr : String := "creating app: status 409, body: app already exists"

/-- `Client.CreateApp` against the remote apps endpoint, with the endpoint's
behaviour as the repository's fake remote server implements it
(`internal/fakefly`): creating an app that already exists answers 409
Conflict, which the client surfaces as an error; otherwise the app is
registered and 201 returned. -/
def flyCreateApp (fault : Option String) (st : FlyState) (app : String) :
    FlyState × Except String Unit :=
  match fault with
  | some e => (st, .error e)
  | none =>
    if st.apps.contains app then (st, .error appExistsErr)
    else ({ st with apps := app :: st.apps }, .ok ())

/-- `Client.CreateMachine`: registers the machine record the caller built. -/
def flyCreateMachine (fault : Option String) (st : FlyState) (rec : MachineRec) :
    FlyState × Except String Unit :=
  match fault with
  | some e => (st, .error e)
  | none => ({ st with machines := rec :: st.machines }, .ok ())

/-- `Client.WaitForMachine`: blocks until the target state or fails. -/
def flyWaitMachine (fault : Option String) : Except String Unit :=
  match fault with
  | some e => .error e
  | none => .ok ()

/-- `Client.AllocateDedicatedIPv4`. -/
def flyAllocateIP (fault : Option String) (st : FlyState) (app id addr : String) :
    FlyState × Except String Unit :=
  match fault with
  | some e => (st, .error e)
  | none => ({ st with ips := ⟨app, id, addr⟩ :: st.ips }, .ok ())

/-- `Client.ReleaseIPAddress`. -/
def flyReleaseIP (fails : Bool) (st : FlyState) (app id : String) :
    FlyState × Except String Unit :=
  if fails then (st, .error "releasing IP failed")
  else ({ st with ips := st.ips.filter (fun r => !(r.app = app && r.id = id)) }, .ok ())

/-- `Client.DeleteMachine`. -/
def flyDeleteMachine (fails : Bool) (st : FlyState) (app id : String) :
    FlyState × Except String Unit :=
  if fails then (st, .error "deleting machine failed")
  else
    ({ st with machines := st.machines.filter (fun m => !(m.app = app && m.id = id)) }, .ok ())

/-- `Client.DeleteApp`. -/
def flyDeleteApp (fails : Bool) (st : FlyState) (app : String) :
    FlyState × Except String Unit :=
  if fails then (st, .error "deleting app failed")
  else ({ st with apps := st.apps.filter (fun a => a ≠ app) }, .ok ())

/-! ## The in-cluster side: deployFrpc / deleteFrpcResources -/

/-- Look a ConfigMap up by name. -/
def findCM (k : KubeState) (n : String) : Option KubeConfigMap :=
  k.configMaps.find? (fun c => c.name = n)

/-- Look a Deployment up by name. -/
def findDeploy (k : KubeState) (n : String) : Option KubeDeployment :=
  k.deployments.find? (fun d => d.name = n)

/-- Replace a ConfigMap's `frpc.toml` payload. -/
def setCMData (k : KubeState) (n data : String) : KubeState :=
  { k with configMaps := k.configMaps.map (fun c => if c.name = n then { c with data := data } else c) }

/-- Stamp an annotation onto a Deployment's pod template. -/
def setDeployTemplateAnn (k : KubeState) (n key v : String) : KubeState :=
  { k with deployments := k.deployments.map (fun d =>
      if d.name = n then { d with templateAnnotations := setAssoc d.templateAnnotations key v } else d) }

/-- `Manager.deployFrpc`: create (or idempotently update) the frpc ConfigMap
and Deployment.  The injected fault stands for the first cluster-API call
failing, before any write lands; the nested Go error wrappings of the
individual cluster calls are collapsed into the injected message. -/
def deployFrpc (cfg : Config) (svc : Service) (serverAddr deploymentName : String)
    (fault : Option String) (k : KubeState) : KubeState × Except String Unit :=
  match fault with
  | some e => (k, .error e)
  | none =>
    let configMapName := deploymentName ++ "-config"
    let configData := generateClientConfig svc serverAddr defaultServerPort
    let k1 :=
      if (findCM k configMapName).isSome then setCMData k configMapName configData
      else { k with configMaps :=
        k.configMaps ++ [⟨configMapName, configData, serviceLabelValue svc⟩] }
    let newDeploy : KubeDeployment :=
      ⟨deploymentName, cfg.frpcImage, configMapName, []⟩
    let k2 :=
      if (findDeploy k1 deploymentName).isSome then
        { k1 with deployments := k1.deployments.map (fun d =>
            if d.name = deploymentName then newDeploy else d) }
      else { k1 with deployments := k1.deployments ++ [newDeploy] }
    (k2, .ok ())

/-- `Manager.deleteFrpcResources`: delete the frpc Deployment and ConfigMap,
tolerating not-found.  The fault stands for a failing cluster delete. -/
def deleteFrpcResources (fails : Bool) (k : KubeState) (deploymentName : String) :
    KubeState × Except String Unit :=
  if fails then (k, .error "deleting frpc resources failed")
  else
    ({ configMaps := k.configMaps.filter (fun c => c.name ≠ deploymentName ++ "-config")
       deployments := k.deployments.filter (fun d => d.name ≠ deploymentName) }, .ok ())

/-! ## Provision -/

/-- `TunnelResult`. -/
structure TunnelResult where
  flyApp : String
  machineID : String
  publicIP : String
  ipID : String
  frpcDeployment : String
  deriving DecidableEq

/-- The identifiers the remote provider assigns during one Provision pass
(returned by create-machine and allocate-address). -/
structure ProvisionEnv where
  machineID : String
  instanceID : String
  ipID : String
  ipAddr : String
  deriving DecidableEq

/-- Injectable per-step faults for one Provision pass. -/
structure Faults where
  createApp : Option String := none
  createMachine : Option String := none
  waitMachine : Option String := none
  allocateIP : Option String := none
  deployFrpc : Option String := none
  releaseIPFails : Bool := false
  deleteMachineFails : Bool := false
  deleteAppFails : Bool := false
  deriving DecidableEq

/-- The no-fault injection. -/
def noFaults : Faults := {}

/-- The per-service region: the `fly-region` annotation override or the
configured default. -/
def regionFor (cfg : Config) (svc : Service) : String :=
  if annGet svc AnnotationFlyRegion ≠ "" then annGet svc AnnotationFlyRegion else cfg.flyRegion

/-- The per-service guest config: the `fly-machine-size` annotation override
or the configured default, through `guestForSize`. -/
def guestFor (cfg : Config) (svc : Service) : GuestConfig :=
  if annGet svc AnnotationFlyMachineSize ≠ "" then guestForSize (annGet svc AnnotationFlyMachineSize)
  else guestForSize cfg.flyMachineSize

/-- The body of `Manager.Provision`, over the three derived names the Go
function computes into local variables at its start (`tunnelName`,
`flyAppName`, `frpcDeploymentName`): create app → create machine → wait for
start → allocate IPv4 → deploy frpc, unwinding the already-created remote
resources (best-effort, errors discarded) when a later step fails.  Returns
the final state, the trace of remote calls in issue order, and the result. -/
def ProvisionCore (cfg : Config) (env : ProvisionEnv) (fl : Faults) (svc : Service)
    (tunnelName flyAppName frpcDeploymentName : String) (w : World) :
    World × List FlyOp × Except String TunnelResult :=
  match flyCreateApp fl.createApp w.fly flyAppName with
  | (fly1, .error e) =>
    (⟨fly1, w.kube⟩, [.createApp flyAppName], .error ("creating fly app: " ++ e))
  | (fly1, .ok _) =>
    let machine : MachineRec :=
      { app := flyAppName, id := env.machineID, instanceID := env.instanceID
        machineName := tunnelName, region := regionFor cfg svc, image := cfg.frpsImage
        guest := some (guestFor cfg svc), services := machineServicesFor svc.ports
        envConfig := generateServerConfig defaultServerPort }
    match flyCreateMachine fl.createMachine fly1 machine with
    | (fly2, .error e) =>
      ((⟨(flyDeleteApp fl.deleteAppFails fly2 flyAppName).1, w.kube⟩ : World),
       [.createApp flyAppName, .createMachine flyAppName env.machineID, .deleteApp flyAppName],
       .error ("creating fly machine: " ++ e))
    | (fly2, .ok _) =>
      match flyWaitMachine fl.waitMachine with
      | .error e =>
        let fly3 := (flyDeleteMachine fl.deleteMachineFails fly2 flyAppName env.machineID).1
        ((⟨(flyDeleteApp fl.deleteAppFails fly3 flyAppName).1, w.kube⟩ : World),
         [.createApp flyAppName, .createMachine flyAppName env.machineID,
          .waitMachine flyAppName env.machineID,
          .deleteMachine flyAppName env.machineID, .deleteApp flyAppName],
         .error ("waiting for machine to start: " ++ e))
      | .ok _ =>
        match flyAllocateIP fl.allocateIP fly2 flyAppName env.ipID env.ipAddr with
        | (fly3, .error e) =>
          let fly4 := (flyDeleteMachine fl.deleteMachineFails fly3 flyAppName env.machineID).1
          ((⟨(flyDeleteApp fl.deleteAppFails fly4 flyAppName).1, w.kube⟩ : World),
           [.createApp flyAppName, .createMachine flyAppName env.machineID,
            .waitMachine flyAppName env.machineID, .allocateIP flyAppName env.ipID,
            .deleteMachine flyAppName env.machineID, .deleteApp flyAppName],
           .error ("allocating dedicated IPv4: " ++ e))
        | (fly3, .ok _) =>
          match deployFrpc cfg svc env.ipAddr frpcDeploymentName fl.deployFrpc w.kube with
          | (kube1, .error e) =>
            let fly4 := (flyReleaseIP fl.releaseIPFails fly3 flyAppName env.ipID).1
            let fly5 := (flyDeleteMachine fl.deleteMachineFails fly4 flyAppName env.machineID).1
            ((⟨(flyDeleteApp fl.deleteAppFails fly5 flyAppName).1, kube1⟩ : World),
             [.createApp flyAppName, .createMachine flyAppName env.machineID,
              .waitMachine flyAppName env.machineID, .allocateIP flyAppName env.ipID,
              .releaseIP flyAppName env.ipID, .deleteMachine flyAppName env.machineID,
              .deleteApp flyAppName],
             .error ("deploying frpc: " ++ e))
          | (kube1, .ok _) =>
            ((⟨fly3, kube1⟩ : World),
             [.createApp flyAppName, .createMachine flyAppName env.machineID,
              .waitMachine flyAppName env.machineID, .allocateIP flyAppName env.ipID],
             .ok { flyApp := flyAppName, machineID := env.machineID, publicIP := env.ipAddr
                   ipID := env.ipID, frpcDeployment := frpcDeploymentName })

/-- `Manager.Provision`: the saga body applied to the derived tunnel, app and
deployment names of the service. -/
def Provision (cfg : Config) (env : ProvisionEnv) (fl : Faults) (svc : Service) (w : World) :
    World × List FlyOp × Except String TunnelResult :=
  ProvisionCore cfg env fl svc (tunnelNameForService svc) (flyAppNameForService svc)
    (frpcDeploymentNameForService svc) w

/-- Modelled from the spec: the Provision revision that resolves the frpc
resource requirements before deploying and fails fast on a resolution error
("validation errors (bad resource-quantity annotation …) — fail fast with a
message naming the offending field; never guessed or defaulted", §7(c)).
The manager revision wiring `frpcResources` into the frpc deployment is
exercised by the repository's tests (`TestProvision_InvalidResourceAnnotation`)
but is not itself under src/. -/
def ProvisionWithResources (cfg : Config) (env : ProvisionEnv) (fl : Faults)
    (svc : Service) (w : World) : World × List FlyOp × Except String TunnelResult :=
  match frpcResources svc with
  | .error e => (w, [], .error e)
  | .ok _ => Provision cfg env fl svc w

/-! ## Teardown -/

/-- Injectable per-step faults for one Teardown pass. -/
structure TeardownFaults where
  deleteFrpc : Bool := false
  releaseIP : Bool := false
  deleteMachine : Bool := false
  deleteApp : Bool := false
  deriving DecidableEq

/-- The no-fault teardown injection. -/
def noTeardownFaults : TeardownFaults := {}

/-- `Manager.Teardown`: delete the frpc Deployment/ConfigMap, release the IP,
delete the machine, delete the app — each step gated on its recorded
annotation, each step's error logged and discarded; the returned error value
(the last component) is what the Go function returns to its caller. -/
def Teardown (tf : TeardownFaults) (svc : Service) (w : World) :
    World × List FlyOp × Option String :=
  let flyAppName := annGet svc AnnotationFlyApp
  let kube1 :=
    match annLookup svc AnnotationFrpcDeployment with
    | some deployName =>
      if deployName ≠ "" then (deleteFrpcResources tf.deleteFrpc w.kube deployName).1
      else w.kube
    | none => w.kube
  if flyAppName = "" then ((⟨w.fly, kube1⟩ : World), [], none)
  else
    let ipStep : FlyState × List FlyOp :=
      match annLookup svc AnnotationIPID with
      | some ipID =>
        if ipID ≠ "" then
          ((flyReleaseIP tf.releaseIP w.fly flyAppName ipID).1, [.releaseIP flyAppName ipID])
        else (w.fly, [])
      | none => (w.fly, [])
    let machineStep : FlyState × List FlyOp :=
      match annLookup svc AnnotationMachineID with
      | some machineID =>
        if machineID ≠ "" then
          ((flyDeleteMachine tf.deleteMachine ipStep.1 flyAppName machineID).1,
           [.deleteMachine flyAppName machineID])
        else (ipStep.1, [])
      | none => (ipStep.1, [])
    let fly3 := (flyDeleteApp tf.deleteApp machineStep.1 flyAppName).1
    ((⟨fly3, kube1⟩ : World),
     ipStep.2 ++ machineStep.2 ++ [.deleteApp flyAppName], none)

/-- `FinalizerName`. -/
def FinalizerName : String := "fly-tunnel-operator.dev/finalizer"

/-- `controllerutil.RemoveFinalizer`. -/
def removeFinalizer (svc : Service) : Service :=
  { svc with finalizers := svc.finalizers.filter (fun f => f ≠ FinalizerName) }

/-- `ServiceReconciler.reconcileDelete`: tear the tunnel down, then — the
teardown having returned no error — remove the finalizer. -/
def reconcileDelete (tf : TeardownFaults) (svc : Service) (w : World) :
    World × Service × Except String Unit :=
  let torn := Teardown tf svc w
  match torn.2.2 with
  | some e => (torn.1, svc, .error ("tearing down tunnel: " ++ e))
  | none => (torn.1, removeFinalizer svc, .ok ())

/-! ## Update -/

/-- The pod-template annotation Update stamps to force a rollout. -/
def restartAtKey : String := "fly-tunnel-operator.dev/restart-at"

/-- `Manager.Update`: regenerate the frpc config, stamp the pod template's
restart annotation with the current time (`now` stands for
`time.Now().Format(time.RFC3339)`), and — when a machine id is recorded —
push the rebuilt services list to the remote machine.  Missing
ConfigMap/Deployment/machine surface as the wrapped Go errors. -/
def Update (cfg : Config) (svc : Service) (now : String) (w : World) :
    World × Except String Unit :=
  let publicIP := annGet svc AnnotationPublicIP
  let deployName := annGet svc AnnotationFrpcDeployment
  let machineID := annGet svc AnnotationMachineID
  let flyAppName := annGet svc AnnotationFlyApp
  if publicIP = "" || deployName = "" || flyAppName = "" then
    (w, .error "service missing tunnel annotations, cannot update")
  else
    let configMapName := deployName ++ "-config"
    let configData := generateClientConfig svc publicIP defaultServerPort
    if (findCM w.kube configMapName).isNone then
      (w, .error "getting frpc configmap: not found")
    else
      let kube1 := setCMData w.kube configMapName configData
      if (findDeploy kube1 deployName).isNone then
        ((⟨w.fly, kube1⟩ : World), .error "getting frpc deployment: not found")
      else
        let kube2 := setDeployTemplateAnn kube1 deployName restartAtKey now
        if machineID ≠ "" then
          if w.fly.machines.any (fun m => m.app = flyAppName && m.id = machineID) then
            let updated := { w.fly with machines := w.fly.machines.map (fun m =>
              if m.app = flyAppName && m.id = machineID then
                { m with machineName := tunnelNameForService svc
                         region := regionFor cfg svc
                         image := cfg.frpsImage
                         guest := none
                         services := machineServicesFor svc.ports
                         envConfig := generateServerConfig defaultServerPort }
              else m) }
            ((⟨updated, kube2⟩ : World), .ok ())
          else ((⟨w.fly, kube2⟩ : World), .error "updating fly machine: machine not found")
        else ((⟨w.fly, kube2⟩ : World), .ok ())

/-! ## Concrete fixtures, for witnesses and counterexamples -/

/-- A small operator configuration. -/
def demoCfg : Config :=
  ⟨"personal", "syd", "shared-cpu-1x", "frps-img", "frpc-img", "fly-tunnel-operator-system"⟩

/-- An annotation-free LoadBalancer service with one port. -/
def demoSvc : Service :=
  { ns := "default", name := "nginx", annotations := [], ports := [⟨"http", "tcp", 80⟩]
    finalizers := [FinalizerName] }

/-- Remote-assigned identifiers for one Provision pass. -/
def demoEnv : ProvisionEnv := ⟨"m1", "i1", "ip1", "1.2.3.4"⟩

/-- The empty remote + cluster state. -/
def emptyWorld : World := ⟨⟨[], [], []⟩, ⟨[], []⟩⟩

/-- The state after a fault-free Provision of `demoSvc`. -/
def demoProvisioned : World := (Provision demoCfg demoEnv noFaults demoSvc emptyWorld).1

/-- `demoSvc` with the tunnel annotations the reconciler records after a
successful Provision. -/
def demoAnnSvc : Service :=
  { demoSvc with annotations :=
      [(AnnotationFlyApp, "fly-tunnel-default-nginx"), (AnnotationMachineID, "m1"),
       (AnnotationIPID, "ip1"), (AnnotationFrpcDeployment, "frpc-default-nginx"),
       (AnnotationPublicIP, "1.2.3.4")] }

/-! ## C2: Teardown never fails, so deletion always reaches finalizer removal -/

/-- **C2.**  For every intent object, whatever annotations it carries and
whatever per-step faults are injected, `Teardown` returns no error; the
deletion reconciliation pass therefore always succeeds and removes the
finalizer. -/
theorem teardown_never_fails (tf : TeardownFaults) (svc : Service) (w : World) :
    (Teardown tf svc w).2.2 = none ∧
    (reconcileDelete tf svc w).2.2 = .ok () ∧
    FinalizerName ∉ ((reconcileDelete tf svc w).2.1).finalizers := by
  have ht : (Teardown tf svc w).2.2 = none := by
    unfold Teardown
    dsimp only
    split <;> rfl
  refine ⟨ht, ?_, ?_⟩
  · simp only [reconcileDelete, ht]
  · simp only [reconcileDelete, ht, removeFinalizer]
    simp [List.mem_filter]

/-! ## C3: Teardown does not fall back to derived names (corrected) -/

/-- A world holding exactly the remote and cluster resources a provision of
`demoSvc` creates — under their deterministically derived names. -/
def c3World : World := demoProvisioned

/-- **C3 counterexample.**  A service whose identity annotations are all
absent: `Teardown` performs no remote calls and leaves every resource —
including the remote app under the derived name — in place, contradicting the
claimed fallback to derived identifiers. -/
theorem teardown_no_fallback_counterexample :
    annLookup demoSvc AnnotationFlyApp = none ∧
    annLookup demoSvc AnnotationFrpcDeployment = none ∧
    flyAppNameForService demoSvc ∈ c3World.fly.apps ∧
    Teardown noTeardownFaults demoSvc c3World = (c3World, [], none) ∧
    flyAppNameForService demoSvc ∈ (Teardown noTeardownFaults demoSvc c3World).1.fly.apps := by
  refine ⟨by decide, by decide, by decide, by decide, by decide⟩

/-- **C3 (amended).**  Teardown drives each step from the recorded
annotations only: when the fly-app and frpc-deployment annotations are absent
or empty, it performs no deletions at all — it does not fall back to the
derived identifiers. -/
theorem teardown_skips_steps_without_annotations (tf : TeardownFaults) (svc : Service)
    (w : World) (hApp : annGet svc AnnotationFlyApp = "")
    (hDep : annGet svc AnnotationFrpcDeployment = "") :
    Teardown tf svc w = (w, [], none) := by
  unfold Teardown
  cases hD : annLookup svc AnnotationFrpcDeployment with
  | none => simp [hD, hApp]
  | some v =>
    have hv : v = "" := by simpa [annGet, hD] using hDep
    subst hv
    simp [hD, hApp]

/-- **C3 witness.**  The amended theorem applied to the annotation-free demo
service over the fully provisioned world. -/
theorem teardown_skips_steps_without_annotations_witness :
    annGet demoSvc AnnotationFlyApp = "" ∧
    Teardown noTeardownFaults demoSvc c3World = (c3World, [], none) :=
  ⟨by decide,
   teardown_skips_steps_without_annotations noTeardownFaults demoSvc c3World
     (by decide) (by decide)⟩

/-! ## Lookup lemmas for the cluster-state writes -/

/-- Association-list read, mirroring `annLookup` for arbitrary string maps. -/
def getAssoc (l : List (String × String)) (k : String) : Option String :=
  (l.find? (fun kv => kv.1 = k)).map (·.2)

/-- Writing a key then reading it back yields the written value. -/
theorem getAssoc_setAssoc (l : List (String × String)) (k v : String) :
    getAssoc (setAssoc l k v) k = some v := by
  unfold setAssoc getAssoc
  by_cases h : l.any (fun kv => kv.1 = k)
  · simp only [h, if_true]
    induction l with
    | nil => simp at h
    | cons hd tl ih =>
      by_cases hhd : hd.1 = k
      · simp [List.find?_cons, hhd]
      · have htl : tl.any (fun kv => kv.1 = k) := by
          simpa [List.any_cons, hhd] using h
        simpa [List.find?_cons, hhd] using ih htl
  · simp only [h, if_false]
    induction l with
    | nil => simp [List.find?]
    | cons hd tl ih =>
      have hhd : ¬hd.1 = k := by
        intro hk
        exact h (by simp [List.any_cons, hk])
      have htl : ¬tl.any (fun kv => kv.1 = k) := by
        intro hk
        exact h (by simp [List.any_cons, hk])
      simpa [List.find?_cons, hhd] using ih htl

/-- `find?` by name over a name-preserving conditional rewrite of a list. -/
theorem find?_name_map {α : Type} (name : α → String) (l : List α) (n : String) (g : α → α)
    (hg : ∀ x, name (g x) = name x) :
    (l.map (fun x => if name x = n then g x else x)).find? (fun x => name x = n) =
      (l.find? (fun x => name x = n)).map g := by
  induction l with
  | nil => rfl
  | cons hd tl ih =>
    by_cases h : name hd = n
    · simp [List.find?_cons, h, hg]
    · simp [List.find?_cons, h, ih]

/-- `setCMData` leaves the deployments untouched. -/
theorem findDeploy_setCMData (k : KubeState) (m data n : String) :
    findDeploy (setCMData k m data) n = findDeploy k n := rfl

/-- `setDeployTemplateAnn` leaves the config maps untouched. -/
theorem findCM_setDeployTemplateAnn (k : KubeState) (m key v n : String) :
    findCM (setDeployTemplateAnn k m key v) n = findCM k n := rfl

/-- Reading the ConfigMap back after `setCMData`. -/
theorem findCM_setCMData (k : KubeState) (n data : String) :
    findCM (setCMData k n data) n = (findCM k n).map (fun c => { c with data := data }) := by
  unfold findCM setCMData
  exact find?_name_map KubeConfigMap.name k.configMaps n _ (fun x => rfl)

/-- Reading the Deployment back after `setDeployTemplateAnn`. -/
theorem findDeploy_setDeployTemplateAnn (k : KubeState) (n key v : String) :
    findDeploy (setDeployTemplateAnn k n key v) n =
      (findDeploy k n).map
        (fun d => { d with templateAnnotations := setAssoc d.templateAnnotations key v }) := by
  unfold findDeploy setDeployTemplateAnn
  exact find?_name_map KubeDeployment.name k.deployments n _ (fun x => rfl)

/-! ## C5: the rollout trigger is a timestamp, not a content hash (corrected) -/

/-- **C5 counterexample.**  Two successive Updates with the identical service
(same declared ports, same recorded address) regenerate identical
configuration content, yet the second call still rewrites the deployment's
pod template: the rollout-trigger annotation is the wall-clock timestamp, not
a function of the configuration content. -/
theorem update_restart_not_content_hash_counterexample :
    (Update demoCfg demoAnnSvc "2024-01-01T00:00:00Z" demoProvisioned).2 = .ok () ∧
    (Update demoCfg demoAnnSvc "2024-01-01T00:00:01Z"
        (Update demoCfg demoAnnSvc "2024-01-01T00:00:00Z" demoProvisioned).1).2 = .ok () ∧
    (findCM (Update demoCfg demoAnnSvc "2024-01-01T00:00:00Z" demoProvisioned).1.kube
        "frpc-default-nginx-config").map KubeConfigMap.data =
      (findCM (Update demoCfg demoAnnSvc "2024-01-01T00:00:01Z"
          (Update demoCfg demoAnnSvc "2024-01-01T00:00:00Z" demoProvisioned).1).1.kube
        "frpc-default-nginx-config").map KubeConfigMap.data ∧
    (findDeploy (Update demoCfg demoAnnSvc "2024-01-01T00:00:01Z"
          (Update demoCfg demoAnnSvc "2024-01-01T00:00:00Z" demoProvisioned).1).1.kube
        "frpc-default-nginx").map KubeDeployment.templateAnnotations ≠
      (findDeploy (Update demoCfg demoAnnSvc "2024-01-01T00:00:00Z" demoProvisioned).1.kube
        "frpc-default-nginx").map KubeDeployment.templateAnnotations := by
  refine ⟨by decide, by decide, by decide, by decide⟩

/-- **C5 (amended).**  Update stamps the deployment pod template's
`restart-at` annotation with the current timestamp: on every pass that gets
past the annotation guard and the ConfigMap read, the deployment (when
present) carries `restart-at = now` in its pod template — so every successful
Update whose timestamp differs from the previous one triggers a rollout,
whether or not the configuration content changed. -/
theorem update_stamps_restart_timestamp (cfg : Config) (svc : Service) (now : String) (w : World)
    (h1 : annGet svc AnnotationPublicIP ≠ "")
    (h2 : annGet svc AnnotationFrpcDeployment ≠ "")
    (h3 : annGet svc AnnotationFlyApp ≠ "")
    (hcm : (findCM w.kube (annGet svc AnnotationFrpcDeployment ++ "-config")).isSome) :
    findDeploy (Update cfg svc now w).1.kube (annGet svc AnnotationFrpcDeployment) =
      (findDeploy w.kube (annGet svc AnnotationFrpcDeployment)).map
        (fun d => { d with templateAnnotations := setAssoc d.templateAnnotations restartAtKey now }) ∧
    ∀ d, findDeploy (Update cfg svc now w).1.kube (annGet svc AnnotationFrpcDeployment) = some d →
      getAssoc d.templateAnnotations restartAtKey = some now := by
  have hmain : findDeploy (Update cfg svc now w).1.kube (annGet svc AnnotationFrpcDeployment) =
      (findDeploy w.kube (annGet svc AnnotationFrpcDeployment)).map
        (fun d => { d with templateAnnotations := setAssoc d.templateAnnotations restartAtKey now }) := by
    unfold Update
    simp only [h1, h2, h3]
    rw [Option.isSome_iff_exists] at hcm
    obtain ⟨cm, hcm'⟩ := hcm
    simp only [hcm', decide_False, decide_True, Bool.or_self, Bool.or_false, Bool.false_or,
      if_false, Option.isNone_some, Bool.false_eq_true]
    split
    · next hdnone =>
      rw [findDeploy_setCMData] at hdnone
      simp only [Option.isNone_iff_eq_none, Option.map_eq_none] at hdnone
      simp [findDeploy_setCMData, hdnone]
    · next hdsome =>
      split
      · split
        · simp [findDeploy_setDeployTemplateAnn, findDeploy_setCMData]
        · simp [findDeploy_setDeployTemplateAnn, findDeploy_setCMData]
      · simp [findDeploy_setDeployTemplateAnn, findDeploy_setCMData]
  refine ⟨hmain, ?_⟩
  intro d hfd
  rw [hmain] at hfd
  cases hfd' : findDeploy w.kube (annGet svc AnnotationFrpcDeployment) with
  | none =>
    rw [hfd'] at hfd
    exact Option.noConfusion hfd
  | some d0 =>
    rw [hfd'] at hfd
    simp only [Option.map] at hfd
    rw [← Option.some.inj hfd]
    exact getAssoc_setAssoc d0.templateAnnotations restartAtKey now

/-- **C5 witness.**  The amended theorem applied to the provisioned demo
service, with the stamp read back. -/
theorem update_stamps_restart_timestamp_witness :
    annGet demoAnnSvc AnnotationPublicIP ≠ "" ∧
    (findCM demoProvisioned.kube (annGet demoAnnSvc AnnotationFrpcDeployment ++ "-config")).isSome ∧
    ∀ d, findDeploy (Update demoCfg demoAnnSvc "t0" demoProvisioned).1.kube
        (annGet demoAnnSvc AnnotationFrpcDeployment) = some d →
      getAssoc d.templateAnnotations restartAtKey = some "t0" :=
  ⟨by decide, by decide,
   (update_stamps_restart_timestamp demoCfg demoAnnSvc "t0" demoProvisioned
      (by decide) (by decide) (by decide) (by decide)).2⟩

/-! ## C10: a missing machine-id annotation does not fail Update -/

/-- **C10.**  When the public-ip, frpc-deployment and fly-app annotations are
present but the machine-id annotation is absent or empty, Update succeeds: it
rewrites the ConfigMap and stamps the pod template, and silently skips the
remote compute-instance reconfiguration (the provider state is untouched). -/
theorem update_skips_machine_without_id (cfg : Config) (svc : Service) (now : String) (w : World)
    (h1 : annGet svc AnnotationPublicIP ≠ "")
    (h2 : annGet svc AnnotationFrpcDeployment ≠ "")
    (h3 : annGet svc AnnotationFlyApp ≠ "")
    (h4 : annGet svc AnnotationMachineID = "")
    (hcm : (findCM w.kube (annGet svc AnnotationFrpcDeployment ++ "-config")).isSome)
    (hd : (findDeploy w.kube (annGet svc AnnotationFrpcDeployment)).isSome) :
    (Update cfg svc now w).2 = .ok () ∧
    (Update cfg svc now w).1.fly = w.fly ∧
    (findCM (Update cfg svc now w).1.kube (annGet svc AnnotationFrpcDeployment ++ "-config")).map
        KubeConfigMap.data =
      some (generateClientConfig svc (annGet svc AnnotationPublicIP) defaultServerPort) := by
  obtain ⟨cm, hcm'⟩ := Option.isSome_iff_exists.mp hcm
  obtain ⟨d, hd'⟩ := Option.isSome_iff_exists.mp hd
  have hd2 : findDeploy (setCMData w.kube (annGet svc AnnotationFrpcDeployment ++ "-config")
      (generateClientConfig svc (annGet svc AnnotationPublicIP) defaultServerPort))
      (annGet svc AnnotationFrpcDeployment) = some d := by
    rw [findDeploy_setCMData]
    exact hd'
  unfold Update
  simp only [h1, h2, h3, h4, hcm', hd2, decide_False, decide_True, Bool.or_self, Bool.or_false,
    Bool.false_or, if_false, Option.isNone_some, Bool.false_eq_true, ne_eq, not_true_eq_false,
    ite_false, not_false_eq_true, ite_true]
  refine ⟨by trivial, by trivial, ?_⟩
  rw [findCM_setDeployTemplateAnn, findCM_setCMData, hcm']
  rfl

/-- **C10 witness.**  The provisioned demo service with every tunnel
annotation except machine-id. -/
theorem update_skips_machine_without_id_witness :
    annGet ({ demoSvc with annotations :=
        [(AnnotationFlyApp, "fly-tunnel-default-nginx"), (AnnotationIPID, "ip1"),
         (AnnotationFrpcDeployment, "frpc-default-nginx"),
         (AnnotationPublicIP, "1.2.3.4")] } : Service) AnnotationMachineID = "" ∧
    (Update demoCfg ({ demoSvc with annotations :=
        [(AnnotationFlyApp, "fly-tunnel-default-nginx"), (AnnotationIPID, "ip1"),
         (AnnotationFrpcDeployment, "frpc-default-nginx"),
         (AnnotationPublicIP, "1.2.3.4")] } : Service) "t0" demoProvisioned).2 = .ok () ∧
    (Update demoCfg ({ demoSvc with annotations :=
        [(AnnotationFlyApp, "fly-tunnel-default-nginx"), (AnnotationIPID, "ip1"),
         (AnnotationFrpcDeployment, "frpc-default-nginx"),
         (AnnotationPublicIP, "1.2.3.4")] } : Service) "t0" demoProvisioned).1.fly =
      demoProvisioned.fly :=
  ⟨by decide,
   (update_skips_machine_without_id demoCfg _ "t0" demoProvisioned
      (by decide) (by decide) (by decide) (by decide) (by decide) (by decide)).1,
   (update_skips_machine_without_id demoCfg _ "t0" demoProvisioned
      (by decide) (by decide) (by decide) (by decide) (by decide) (by decide)).2.1⟩

/-! ## C6: one forwarding entry per declared port plus the control channel -/

/-- **C6.**  The services list of the compute instance Provision creates has
the fixed control-channel entry (frp control port, tcp) first, followed by
exactly one entry per declared port whose external and internal ports both
equal the declared port number; its length is the number of declared ports
plus one. -/
theorem provision_machine_services (cfg : Config) (env : ProvisionEnv) (svc : Service)
    (w : World) (hApp : flyAppNameForService svc ∉ w.fly.apps) :
    ((Provision cfg env noFaults svc w).1.fly.machines.head?).map MachineRec.services =
      some (machineServicesFor svc.ports) ∧
    (machineServicesFor svc.ports).length = svc.ports.length + 1 ∧
    (machineServicesFor svc.ports).head? =
      some ⟨"tcp", defaultServerPort, [⟨defaultServerPort⟩]⟩ ∧
    ∀ i p, svc.ports[i]? = some p →
      (machineServicesFor svc.ports)[i + 1]? = some ⟨"tcp", p.port, [⟨p.port⟩]⟩ := by
  have hc : w.fly.apps.contains (flyAppNameForService svc) = false := by simpa using hApp
  refine ⟨?_, by simp [machineServicesFor], rfl, ?_⟩
  · simp only [Provision, ProvisionCore, flyCreateApp, flyCreateMachine, flyWaitMachine,
      flyAllocateIP, deployFrpc, noFaults, hc, Bool.false_eq_true, if_false,
      List.head?_cons, Option.map]
  · intro i p h
    simp [machineServicesFor, h]

/-- **C6 witness.**  The single-port demo service: two entries, control
channel first, port 80 mapped to 80. -/
theorem provision_machine_services_witness :
    demoSvc.ports[0]? = some ⟨"http", "tcp", 80⟩ ∧
    ((Provision demoCfg demoEnv noFaults demoSvc emptyWorld).1.fly.machines.head?).map
        MachineRec.services = some (machineServicesFor demoSvc.ports) ∧
    (machineServicesFor demoSvc.ports)[0 + 1]? = some ⟨"tcp", 80, [⟨80⟩]⟩ :=
  ⟨by decide,
   (provision_machine_services demoCfg demoEnv demoSvc emptyWorld (by simp [emptyWorld])).1,
   (provision_machine_services demoCfg demoEnv demoSvc emptyWorld (by simp [emptyWorld])).2.2.2 0
     ⟨"http", "tcp", 80⟩ (by decide)⟩

/-! ## C4: app creation on an existing app (corrected) -/

/-- A world in which the demo service's derived remote app already exists
(as after an earlier Provision pass whose rollback did not remove it). -/
def c4World : World := ⟨⟨["fly-tunnel-default-nginx"], [], []⟩, ⟨[], []⟩⟩

/-- The Provision body fails at its first step when the app already exists:
the endpoint answers 409 Conflict, the client surfaces it, and the wrapped
error is returned with the state unchanged. -/
theorem provisionCore_conflict (cfg : Config) (env : ProvisionEnv) (svc : Service)
    (T A D : String) (w : World) (h : A ∈ w.fly.apps) :
    ProvisionCore cfg env noFaults svc T A D w =
      (w, [.createApp A], .error ("creating fly app: " ++ appExistsErr)) := by
  have hc : w.fly.apps.contains A = true := by simpa using h
  simp only [ProvisionCore, flyCreateApp, noFaults, hc, if_true]

/-- The Provision body succeeds end to end when the derived app is not yet
present. -/
theorem provisionCore_fresh_ok (cfg : Config) (env : ProvisionEnv) (svc : Service)
    (T A D : String) (w : World) (h : A ∉ w.fly.apps) :
    (ProvisionCore cfg env noFaults svc T A D w).2.2 =
      .ok { flyApp := A, machineID := env.machineID, publicIP := env.ipAddr,
            ipID := env.ipID, frpcDeployment := D } := by
  have hc : w.fly.apps.contains A = false := by simpa using h
  simp only [ProvisionCore, flyCreateApp, flyCreateMachine, flyWaitMachine, flyAllocateIP,
    deployFrpc, noFaults, hc, Bool.false_eq_true, if_false]

/-- **C4 counterexample.**  A world already holding the derived app: Provision
does not reuse it — it returns the wrapped 409-Conflict error of the
app-creation step (`internal/fakefly` answers duplicate creates with 409 and
`Client.CreateApp` accepts only 200/201), leaving the state unchanged. -/
theorem provision_app_conflict_counterexample :
    flyAppNameForService demoSvc ∈ c4World.fly.apps ∧
    Provision demoCfg demoEnv noFaults demoSvc c4World =
      (c4World, [.createApp (flyAppNameForService demoSvc)],
       .error ("creating fly app: " ++ appExistsErr)) :=
  ⟨by decide, by decide⟩

/-! ## C7: resource override validation -/

/-- With every override annotation absent or empty, the resolver walks the
whole table and returns its input unchanged. -/
theorem frpcResourcesGo_ok_of_absent (svc : Service) :
    ∀ (l : List (String × OverrideTarget)) (res : ResourceRequirements),
      (∀ o ∈ l, annGet svc o.1 = "") → frpcResourcesGo svc l res = .ok res := by
  intro l
  induction l with
  | nil => intro res _; rfl
  | cons hd tl ih =>
    intro res hall
    obtain ⟨k, t⟩ := hd
    have hhd : annGet svc k = "" := hall (k, t) (by simp)
    have htl : ∀ o ∈ tl, annGet svc o.1 = "" := fun o ho => hall o (by simp [ho])
    cases hA : annLookup svc k with
    | none =>
      simp only [frpcResourcesGo, hA]
      exact ih res htl
    | some v =>
      have hv : v = "" := by simpa [annGet, hA] using hhd
      subst hv
      simp only [frpcResourcesGo, hA, if_pos rfl]
      exact ih res htl

/-- If some override in the table is present, non-empty and unparsable, the
resolver fails with an error naming such an override's key and raw value —
whatever requirements it was called with. -/
theorem frpcResourcesGo_error_of_bad (svc : Service) :
    ∀ (l : List (String × OverrideTarget)) (res : ResourceRequirements),
      (∃ o ∈ l, ∃ v, annLookup svc o.1 = some v ∧ v ≠ "" ∧ parseQuantity v = none) →
      ∃ o ∈ l, ∃ v, annLookup svc o.1 = some v ∧ v ≠ "" ∧ parseQuantity v = none ∧
        frpcResourcesGo svc l res = .error (frpcResourcesErr o.1 v) := by
  intro l
  induction l with
  | nil =>
    rintro res ⟨o, ho, -⟩
    exact absurd ho (List.not_mem_nil o)
  | cons hd tl ih =>
    intro res hbad
    obtain ⟨k, t⟩ := hd
    cases hA : annLookup svc k with
    | none =>
      have hbad' : ∃ o ∈ tl, ∃ v, annLookup svc o.1 = some v ∧ v ≠ "" ∧
          parseQuantity v = none := by
        obtain ⟨o, ho, v, hv⟩ := hbad
        rcases List.mem_cons.mp ho with rfl | hmem
        · rw [hA] at hv
          exact absurd hv.1 (by simp)
        · exact ⟨o, hmem, v, hv⟩
      obtain ⟨o, ho, v, h1, h2, h3, h4⟩ := ih res hbad'
      refine ⟨o, by simp [ho], v, h1, h2, h3, ?_⟩
      simpa only [frpcResourcesGo, hA] using h4
    | some v0 =>
      by_cases hv0 : v0 = ""
      · subst hv0
        have hbad' : ∃ o ∈ tl, ∃ v, annLookup svc o.1 = some v ∧ v ≠ "" ∧
            parseQuantity v = none := by
          obtain ⟨o, ho, v, hv⟩ := hbad
          rcases List.mem_cons.mp ho with rfl | hmem
          · rw [hA] at hv
            have : v = "" := (Option.some.inj hv.1).symm
            exact absurd this hv.2.1
          · exact ⟨o, hmem, v, hv⟩
        obtain ⟨o, ho, v, h1, h2, h3, h4⟩ := ih res hbad'
        refine ⟨o, by simp [ho], v, h1, h2, h3, ?_⟩
        simpa only [frpcResourcesGo, hA, if_pos rfl] using h4
      · cases hq : parseQuantity v0 with
        | none =>
          refine ⟨(k, t), by simp, v0, hA, hv0, hq, ?_⟩
          simp only [frpcResourcesGo, hA, if_neg hv0, hq]
        | some q =>
          have hbad' : ∃ o ∈ tl, ∃ v, annLookup svc o.1 = some v ∧ v ≠ "" ∧
              parseQuantity v = none := by
            obtain ⟨o, ho, v, hv⟩ := hbad
            rcases List.mem_cons.mp ho with rfl | hmem
            · rw [hA] at hv
              have : v = v0 := (Option.some.inj hv.1).symm
              rw [this, hq] at hv
              exact absurd hv.2.2 (by simp)
            · exact ⟨o, hmem, v, hv⟩
          obtain ⟨o, ho, v, h1, h2, h3, h4⟩ := ih (applyOverride res t q) hbad'
          refine ⟨o, by simp [ho], v, h1, h2, h3, ?_⟩
          simpa only [frpcResourcesGo, hA, if_neg hv0, hq] using h4

/-- **C7.**  Resolution starts from the fixed defaults (10m CPU request,
32Mi memory request, 128Mi memory limit, no CPU limit); a present, non-empty
override that fails to parse as a resource quantity fails the whole
resolution — no requirements are produced, never a partial application — with
an error naming the offending annotation key and raw value; and a resolution
error fails Provision outright instead of falling back to defaults. -/
theorem frpc_resources_validation :
    (∀ svc : Service, (∀ o ∈ resourceAnnotationOverrides, annGet svc o.1 = "") →
      frpcResources svc = .ok defaultFrpcResources) ∧
    defaultFrpcResources.requests.cpu = parseQuantity "10m" ∧
    defaultFrpcResources.requests.memory = parseQuantity "32Mi" ∧
    defaultFrpcResources.limits.memory = parseQuantity "128Mi" ∧
    defaultFrpcResources.limits.cpu = none ∧
    (parseQuantity "10m").isSome = true ∧
    (parseQuantity "32Mi").isSome = true ∧
    (parseQuantity "128Mi").isSome = true ∧
    (∀ svc : Service,
      (∃ o ∈ resourceAnnotationOverrides, ∃ v, annLookup svc o.1 = some v ∧ v ≠ "" ∧
        parseQuantity v = none) →
      ∃ o ∈ resourceAnnotationOverrides, ∃ v, annLookup svc o.1 = some v ∧ v ≠ "" ∧
        parseQuantity v = none ∧ frpcResources svc = .error (frpcResourcesErr o.1 v)) ∧
    ∀ (cfg : Config) (env : ProvisionEnv) (fl : Faults) (svc : Service) (w : World) (e : String),
      frpcResources svc = .error e →
      ProvisionWithResources cfg env fl svc w = (w, [], .error e) := by
  refine ⟨?_, by decide, by decide, by decide, by decide, by decide, by decide, by decide,
    ?_, ?_⟩
  · intro svc hall
    exact frpcResourcesGo_ok_of_absent svc resourceAnnotationOverrides defaultFrpcResources hall
  · intro svc hbad
    exact frpcResourcesGo_error_of_bad svc resourceAnnotationOverrides defaultFrpcResources hbad
  · intro cfg env fl svc w e he
    unfold ProvisionWithResources
    rw [he]

/-- A service whose memory-limit override annotation is not a quantity. -/
def badResSvc : Service :=
  { ns := "default", name := "nginx", ports := []
    annotations := [(AnnotationFrpcMemoryLimit, "not-a-quantity")] }

/-- **C7 witness.**  Defaults for the annotation-free demo service; the
unparsable `not-a-quantity` memory limit fails resolution naming the key and
value, and fails Provision with no resources created. -/
theorem frpc_resources_validation_witness :
    frpcResources demoSvc = .ok defaultFrpcResources ∧
    (∃ o ∈ resourceAnnotationOverrides, ∃ v, annLookup badResSvc o.1 = some v ∧ v ≠ "" ∧
      parseQuantity v = none ∧ frpcResources badResSvc = .error (frpcResourcesErr o.1 v)) ∧
    ProvisionWithResources demoCfg demoEnv noFaults badResSvc emptyWorld =
      (emptyWorld, [], .error (frpcResourcesErr AnnotationFrpcMemoryLimit "not-a-quantity")) :=
  ⟨frpc_resources_validation.1 demoSvc (by decide),
   frpc_resources_validation.2.2.2.2.2.2.2.2.1 badResSvc
     ⟨(AnnotationFrpcMemoryLimit, OverrideTarget.limitsMemory), by decide, "not-a-quantity",
      by decide, by decide, by decide⟩,
   frpc_resources_validation.2.2.2.2.2.2.2.2.2 demoCfg demoEnv noFaults badResSvc emptyWorld
     (frpcResourcesErr AnnotationFrpcMemoryLimit "not-a-quantity") (by decide)⟩

/-! ## C1: Provision rolls back on failure -/

/-- Deleting a freshly prepended element restores the list (no other element
matches the deletion predicate). -/
theorem filter_ne_cons_self {α : Type} [DecidableEq α] (a : α) (l : List α) (h : a ∉ l) :
    (a :: l).filter (fun x => x ≠ a) = l := by
  rw [List.filter_cons]
  simp only [ne_eq, not_true_eq_false, decide_False, Bool.false_eq_true, if_false]
  refine List.filter_eq_self.mpr (fun x hx => ?_)
  simp only [ne_eq, decide_eq_true_eq]
  exact fun hxa => h (hxa ▸ hx)

/-- Deleting by a predicate that holds of the freshly prepended head and of
no element below restores the list. -/
theorem filter_not_cons_self {α : Type} (p : α → Bool) (a : α) (l : List α)
    (ha : p a = true) (hl : ∀ x ∈ l, p x = false) :
    (a :: l).filter (fun x => !p x) = l := by
  rw [List.filter_cons]
  simp only [ha, Bool.not_true, Bool.false_eq_true, if_false]
  exact List.filter_eq_self.mpr (fun x hx => by simp [hl x hx])

/-- A fault injection that additionally makes every compensating delete
(release IP, delete machine, delete app) fail. -/
def faultsWithFailingDeletes (fl : Faults) : Faults :=
  { fl with releaseIPFails := true, deleteMachineFails := true, deleteAppFails := true }

/-- The rollback behaviour of the Provision body, over opaque derived names:
failure at each of the four later steps unwinds exactly the remote resources
the earlier steps created, in reverse creation order, restores the initial
state, and surfaces the failing step's wrapped error; failing compensating
deletes never change the returned error. -/
theorem provisionCore_rollback (cfg : Config) (env : ProvisionEnv) (svc : Service)
    (T A D : String) (w : World) (e : String)
    (hApp : A ∉ w.fly.apps)
    (hMach : ∀ m ∈ w.fly.machines, (m.app = A && m.id = env.machineID) = false)
    (hIP : ∀ r ∈ w.fly.ips, (r.app = A && r.id = env.ipID) = false) :
    ProvisionCore cfg env { createMachine := some e } svc T A D w =
      (w, [.createApp A, .createMachine A env.machineID, .deleteApp A],
       .error ("creating fly machine: " ++ e)) ∧
    ProvisionCore cfg env { waitMachine := some e } svc T A D w =
      (w, [.createApp A, .createMachine A env.machineID, .waitMachine A env.machineID,
           .deleteMachine A env.machineID, .deleteApp A],
       .error ("waiting for machine to start: " ++ e)) ∧
    ProvisionCore cfg env { allocateIP := some e } svc T A D w =
      (w, [.createApp A, .createMachine A env.machineID, .waitMachine A env.machineID,
           .allocateIP A env.ipID, .deleteMachine A env.machineID, .deleteApp A],
       .error ("allocating dedicated IPv4: " ++ e)) ∧
    ProvisionCore cfg env { deployFrpc := some e } svc T A D w =
      (w, [.createApp A, .createMachine A env.machineID, .waitMachine A env.machineID,
           .allocateIP A env.ipID, .releaseIP A env.ipID, .deleteMachine A env.machineID,
           .deleteApp A],
       .error ("deploying frpc: " ++ e)) ∧
    [FlyOp.deleteApp A] =
      ([FlyOp.createApp A].filter isResourceCreating).reverse.map compensationOf ∧
    [FlyOp.deleteMachine A env.machineID, FlyOp.deleteApp A] =
      ([FlyOp.createApp A, FlyOp.createMachine A env.machineID].filter
        isResourceCreating).reverse.map compensationOf ∧
    [FlyOp.releaseIP A env.ipID, FlyOp.deleteMachine A env.machineID, FlyOp.deleteApp A] =
      ([FlyOp.createApp A, FlyOp.createMachine A env.machineID,
        FlyOp.allocateIP A env.ipID].filter isResourceCreating).reverse.map compensationOf ∧
    (ProvisionCore cfg env (faultsWithFailingDeletes { createMachine := some e }) svc T A D w).2.2 =
      .error ("creating fly machine: " ++ e) ∧
    (ProvisionCore cfg env (faultsWithFailingDeletes { waitMachine := some e }) svc T A D w).2.2 =
      .error ("waiting for machine to start: " ++ e) ∧
    (ProvisionCore cfg env (faultsWithFailingDeletes { allocateIP := some e }) svc T A D w).2.2 =
      .error ("allocating dedicated IPv4: " ++ e) ∧
    (ProvisionCore cfg env (faultsWithFailingDeletes { deployFrpc := some e }) svc T A D w).2.2 =
      .error ("deploying frpc: " ++ e) := by
  have hc : (w.fly.apps.contains A) = false := by simpa using hApp
  refine ⟨?_, ?_, ?_, ?_, rfl, rfl, rfl, ?_, ?_, ?_, ?_⟩
  · simp only [ProvisionCore, flyCreateApp, flyCreateMachine, flyDeleteApp,
      hc, Bool.false_eq_true, if_false]
    rw [filter_ne_cons_self _ _ hApp]
  · simp only [ProvisionCore, flyCreateApp, flyCreateMachine, flyWaitMachine,
      flyDeleteMachine, flyDeleteApp, hc, Bool.false_eq_true, if_false]
    rw [filter_not_cons_self _ _ _ (by simp) hMach, filter_ne_cons_self _ _ hApp]
  · simp only [ProvisionCore, flyCreateApp, flyCreateMachine, flyWaitMachine, flyAllocateIP,
      flyDeleteMachine, flyDeleteApp, hc, Bool.false_eq_true, if_false]
    rw [filter_not_cons_self _ _ _ (by simp) hMach, filter_ne_cons_self _ _ hApp]
  · simp only [ProvisionCore, flyCreateApp, flyCreateMachine, flyWaitMachine, flyAllocateIP,
      flyReleaseIP, flyDeleteMachine, flyDeleteApp, deployFrpc, hc, Bool.false_eq_true, if_false]
    rw [filter_not_cons_self _ _ _ (by simp) hIP,
      filter_not_cons_self _ _ _ (by simp) hMach, filter_ne_cons_self _ _ hApp]
  · simp only [ProvisionCore, flyCreateApp, flyCreateMachine, flyDeleteApp,
      faultsWithFailingDeletes, hc, Bool.false_eq_true, if_false]
  · simp only [ProvisionCore, flyCreateApp, flyCreateMachine, flyWaitMachine,
      flyDeleteMachine, flyDeleteApp, faultsWithFailingDeletes, hc, Bool.false_eq_true, if_false]
  · simp only [ProvisionCore, flyCreateApp, flyCreateMachine, flyWaitMachine, flyAllocateIP,
      flyDeleteMachine, flyDeleteApp, faultsWithFailingDeletes, hc, Bool.false_eq_true, if_false]
  · simp only [ProvisionCore, flyCreateApp, flyCreateMachine, flyWaitMachine, flyAllocateIP,
      flyReleaseIP, flyDeleteMachine, flyDeleteApp, deployFrpc, faultsWithFailingDeletes,
      hc, Bool.false_eq_true, if_false]

/-- **C1.**  When Provision fails at compute-instance creation, the
instance-start wait, address allocation, or the in-cluster deployment step,
the remote resources created by the earlier steps are deleted as
compensations in reverse creation order, the initial state is restored, the
returned error is the failing step's wrapped error — and the error is
unchanged even when every compensating delete itself fails. -/
theorem provision_rollback (cfg : Config) (env : ProvisionEnv) (svc : Service) (w : World)
    (e : String)
    (hApp : flyAppNameForService svc ∉ w.fly.apps)
    (hMach : ∀ m ∈ w.fly.machines,
      (m.app = flyAppNameForService svc && m.id = env.machineID) = false)
    (hIP : ∀ r ∈ w.fly.ips,
      (r.app = flyAppNameForService svc && r.id = env.ipID) = false) :
    Provision cfg env { createMachine := some e } svc w =
      (w, [.createApp (flyAppNameForService svc),
           .createMachine (flyAppNameForService svc) env.machineID,
           .deleteApp (flyAppNameForService svc)],
       .error ("creating fly machine: " ++ e)) ∧
    Provision cfg env { waitMachine := some e } svc w =
      (w, [.createApp (flyAppNameForService svc),
           .createMachine (flyAppNameForService svc) env.machineID,
           .waitMachine (flyAppNameForService svc) env.machineID,
           .deleteMachine (flyAppNameForService svc) env.machineID,
           .deleteApp (flyAppNameForService svc)],
       .error ("waiting for machine to start: " ++ e)) ∧
    Provision cfg env { allocateIP := some e } svc w =
      (w, [.createApp (flyAppNameForService svc),
           .createMachine (flyAppNameForService svc) env.machineID,
           .waitMachine (flyAppNameForService svc) env.machineID,
           .allocateIP (flyAppNameForService svc) env.ipID,
           .deleteMachine (flyAppNameForService svc) env.machineID,
           .deleteApp (flyAppNameForService svc)],
       .error ("allocating dedicated IPv4: " ++ e)) ∧
    Provision cfg env { deployFrpc := some e } svc w =
      (w, [.createApp (flyAppNameForService svc),
           .createMachine (flyAppNameForService svc) env.machineID,
           .waitMachine (flyAppNameForService svc) env.machineID,
           .allocateIP (flyAppNameForService svc) env.ipID,
           .releaseIP (flyAppNameForService svc) env.ipID,
           .deleteMachine (flyAppNameForService svc) env.machineID,
           .deleteApp (flyAppNameForService svc)],
       .error ("deploying frpc: " ++ e)) ∧
    [FlyOp.deleteApp (flyAppNameForService svc)] =
      ([FlyOp.createApp (flyAppNameForService svc)].filter
        isResourceCreating).reverse.map compensationOf ∧
    [FlyOp.deleteMachine (flyAppNameForService svc) env.machineID,
     FlyOp.deleteApp (flyAppNameForService svc)] =
      ([FlyOp.createApp (flyAppNameForService svc),
        FlyOp.createMachine (flyAppNameForService svc) env.machineID].filter
        isResourceCreating).reverse.map compensationOf ∧
    [FlyOp.releaseIP (flyAppNameForService svc) env.ipID,
     FlyOp.deleteMachine (flyAppNameForService svc) env.machineID,
     FlyOp.deleteApp (flyAppNameForService svc)] =
      ([FlyOp.createApp (flyAppNameForService svc),
        FlyOp.createMachine (flyAppNameForService svc) env.machineID,
        FlyOp.allocateIP (flyAppNameForService svc) env.ipID].filter
        isResourceCreating).reverse.map compensationOf ∧
    (Provision cfg env (faultsWithFailingDeletes { createMachine := some e }) svc w).2.2 =
      .error ("creating fly machine: " ++ e) ∧
    (Provision cfg env (faultsWithFailingDeletes { waitMachine := some e }) svc w).2.2 =
      .error ("waiting for machine to start: " ++ e) ∧
    (Provision cfg env (faultsWithFailingDeletes { allocateIP := some e }) svc w).2.2 =
      .error ("allocating dedicated IPv4: " ++ e) ∧
    (Provision cfg env (faultsWithFailingDeletes { deployFrpc := some e }) svc w).2.2 =
      .error ("deploying frpc: " ++ e) :=
  provisionCore_rollback cfg env svc (tunnelNameForService svc) (flyAppNameForService svc)
    (frpcDeploymentNameForService svc) w e hApp hMach hIP

/-- **C1 witness.**  Failure injected at the deployment step over the empty
world: all three remote resources are compensated away and the deployment
error surfaces. -/
theorem provision_rollback_witness :
    Provision demoCfg demoEnv { deployFrpc := some "boom" } demoSvc emptyWorld =
      (emptyWorld,
       [.createApp (flyAppNameForService demoSvc),
        .createMachine (flyAppNameForService demoSvc) demoEnv.machineID,
        .waitMachine (flyAppNameForService demoSvc) demoEnv.machineID,
        .allocateIP (flyAppNameForService demoSvc) demoEnv.ipID,
        .releaseIP (flyAppNameForService demoSvc) demoEnv.ipID,
        .deleteMachine (flyAppNameForService demoSvc) demoEnv.machineID,
        .deleteApp (flyAppNameForService demoSvc)],
       .error ("deploying frpc: " ++ "boom")) :=
  (provision_rollback demoCfg demoEnv demoSvc emptyWorld "boom"
    (by simp [emptyWorld]) (by simp [emptyWorld]) (by simp [emptyWorld])).2.2.2.1

/-- **C4 (amended).**  Provision's first step is a plain create, not a
create-or-reuse: whenever the remote app with the derived name already
exists, the apps endpoint answers 409 Conflict (`internal/fakefly`),
`Client.CreateApp` — which accepts only 200/201 — surfaces it, and Provision
returns the wrapped creation error with the state unchanged.  Re-invoking
Provision after a failed earlier pass succeeds only because that pass's
rollback deleted the app it had created: from a state where the derived
resources are fresh, a pass failing at the deployment step followed by a
fault-free pass ends in full success. -/
theorem provision_app_conflict_and_retry (cfg : Config) (env : ProvisionEnv) (svc : Service)
    (w : World) (e : String)
    (hApp : flyAppNameForService svc ∉ w.fly.apps)
    (hMach : ∀ m ∈ w.fly.machines,
      (m.app = flyAppNameForService svc && m.id = env.machineID) = false)
    (hIP : ∀ r ∈ w.fly.ips,
      (r.app = flyAppNameForService svc && r.id = env.ipID) = false) :
    (∀ w2 : World, flyAppNameForService svc ∈ w2.fly.apps →
      Provision cfg env noFaults svc w2 =
        (w2, [.createApp (flyAppNameForService svc)],
         .error ("creating fly app: " ++ appExistsErr))) ∧
    (Provision cfg env noFaults svc
        ((Provision cfg env { deployFrpc := some e } svc w).1)).2.2 =
      .ok { flyApp := flyAppNameForService svc, machineID := env.machineID,
            publicIP := env.ipAddr, ipID := env.ipID,
            frpcDeployment := frpcDeploymentNameForService svc } := by
  refine ⟨fun w2 h2 => provisionCore_conflict cfg env svc (tunnelNameForService svc)
    (flyAppNameForService svc) (frpcDeploymentNameForService svc) w2 h2, ?_⟩
  have h4 := (provisionCore_rollback cfg env svc (tunnelNameForService svc)
    (flyAppNameForService svc) (frpcDeploymentNameForService svc) w e hApp hMach hIP).2.2.2.1
  show (ProvisionCore cfg env noFaults svc (tunnelNameForService svc)
      (flyAppNameForService svc) (frpcDeploymentNameForService svc)
      ((ProvisionCore cfg env { deployFrpc := some e } svc (tunnelNameForService svc)
        (flyAppNameForService svc) (frpcDeploymentNameForService svc) w).1)).2.2 = _
  rw [h4]
  exact provisionCore_fresh_ok cfg env svc (tunnelNameForService svc)
    (flyAppNameForService svc) (frpcDeploymentNameForService svc) w hApp

/-- **C4 witness.**  The demo service: against a world already holding the
derived app Provision returns the 409-surfaced creation error, and a pass
failing at the deployment step over the empty world followed by a fault-free
pass ends in full success. -/
theorem provision_app_conflict_and_retry_witness :
    flyAppNameForService demoSvc ∈ c4World.fly.apps ∧
    Provision demoCfg demoEnv noFaults demoSvc c4World =
      (c4World, [.createApp (flyAppNameForService demoSvc)],
       .error ("creating fly app: " ++ appExistsErr)) ∧
    (Provision demoCfg demoEnv noFaults demoSvc
        ((Provision demoCfg demoEnv { deployFrpc := some "boom" } demoSvc emptyWorld).1)).2.2 =
      .ok { flyApp := flyAppNameForService demoSvc, machineID := demoEnv.machineID,
            publicIP := demoEnv.ipAddr, ipID := demoEnv.ipID,
            frpcDeployment := frpcDeploymentNameForService demoSvc } :=
  ⟨by decide,
   (provision_app_conflict_and_retry demoCfg demoEnv demoSvc emptyWorld "boom"
      (by simp [emptyWorld]) (by simp [emptyWorld]) (by simp [emptyWorld])).1
     c4World (by decide),
   (provision_app_conflict_and_retry demoCfg demoEnv demoSvc emptyWorld "boom"
      (by simp [emptyWorld]) (by simp [emptyWorld]) (by simp [emptyWorld])).2⟩

/-! ## C8 and C9: shape and truncation behaviour of the name deriver -/

/-- A list with a double dash keeps it under any cons. -/
theorem hasDoubleDash_cons (c : Char) (l : List Char) (h : hasDoubleDash l = true) :
    hasDoubleDash (c :: l) = true := by
  rw [hasDoubleDash.eq_def]
  split
  · rfl
  · next x rest heq => exact (List.cons.inj heq).2 ▸ h
  · next heq => simp at heq

/-- No double dash in a cons means none in the tail. -/
theorem hasDoubleDash_of_cons (c : Char) (l : List Char)
    (h : hasDoubleDash (c :: l) = false) : hasDoubleDash l = false := by
  cases hl : hasDoubleDash l with
  | false => rfl
  | true => rw [hasDoubleDash_cons c l hl] at h; exact h.symm ▸ rfl

/-- A double dash on the left survives appending. -/
theorem hasDoubleDash_append_left (l₁ l₂ : List Char) (h : hasDoubleDash l₁ = true) :
    hasDoubleDash (l₁ ++ l₂) = true := by
  induction l₁ using hasDoubleDash.induct with
  | case1 rest => rfl
  | case2 c rest hne ih =>
    have h' : hasDoubleDash rest = true := by
      rw [hasDoubleDash.eq_def] at h
      split at h
      · next rest1 heq =>
        obtain ⟨hc, hr⟩ := List.cons.inj heq
        exact absurd trivial (fun _ => hne rest1 hc hr)
      · next x rest1 heq => exact (List.cons.inj heq).2 ▸ h
      · next heq => simp at heq
    exact hasDoubleDash_cons c (rest ++ l₂) (ih h')
  | case3 => simp [hasDoubleDash] at h

/-- A double dash on the right survives appending. -/
theorem hasDoubleDash_append_right (l₁ l₂ : List Char) (h : hasDoubleDash l₂ = true) :
    hasDoubleDash (l₁ ++ l₂) = true := by
  induction l₁ with
  | nil => exact h
  | cons c rest ih => exact hasDoubleDash_cons c (rest ++ l₂) ih

/-- One ReplaceAll pass never lengthens the list. -/
theorem replaceDoubleDash_length (l : List Char) :
    (replaceDoubleDash l).length ≤ l.length := by
  induction l using replaceDoubleDash.induct with
  | case1 rest ih => simp [replaceDoubleDash]; omega
  | case2 c rest hne ih =>
    rw [replaceDoubleDash.eq_def]
    split
    · next rest1 heq =>
      obtain ⟨hc, hr⟩ := List.cons.inj heq
      exact absurd trivial (fun _ => hne rest1 hc hr)
    · next x rest1 heq =>
      obtain ⟨hx, hr⟩ := List.cons.inj heq
      subst hx; subst hr
      simpa using ih
    · next heq => simp at heq
  | case3 => simp [replaceDoubleDash]

/-- One ReplaceAll pass on a list with a double dash strictly shortens it. -/
theorem replaceDoubleDash_length_lt (l : List Char) (h : hasDoubleDash l = true) :
    (replaceDoubleDash l).length < l.length := by
  induction l using replaceDoubleDash.induct with
  | case1 rest ih =>
    have := replaceDoubleDash_length rest
    simp [replaceDoubleDash]
    omega
  | case2 c rest hne ih =>
    have h' : hasDoubleDash rest = true := by
      rw [hasDoubleDash.eq_def] at h
      split at h
      · next rest1 heq =>
        obtain ⟨hc, hr⟩ := List.cons.inj heq
        exact absurd trivial (fun _ => hne rest1 hc hr)
      · next x rest1 heq => exact (List.cons.inj heq).2 ▸ h
      · next heq => simp at heq
    rw [replaceDoubleDash.eq_def]
    split
    · next rest1 heq =>
      obtain ⟨hc, hr⟩ := List.cons.inj heq
      exact absurd trivial (fun _ => hne rest1 hc hr)
    · next x rest1 heq =>
      obtain ⟨hx, hr⟩ := List.cons.inj heq
      subst hx; subst hr
      have := ih h'
      simpa using this
    · next heq => simp at heq
  | case3 => simp [hasDoubleDash] at h

/-- With enough fuel the ReplaceAll loop reaches its fixpoint: no double dash
remains. -/
theorem collapseDashesF_noDD : ∀ (fuel : Nat) (l : List Char), l.length ≤ fuel →
    hasDoubleDash (collapseDashesF fuel l) = false := by
  intro fuel
  induction fuel with
  | zero =>
    intro l hl
    have : l = [] := List.length_eq_zero.mp (Nat.le_zero.mp hl)
    subst this
    rfl
  | succ n ih =>
    intro l hl
    rw [collapseDashesF]
    cases h : hasDoubleDash l with
    | false => simpa using h
    | true =>
      simp only [if_true]
      exact ih _ (by have := replaceDoubleDash_length_lt l h; omega)

/-- The collapse loop leaves no double dash. -/
theorem collapseDashes_noDD (l : List Char) : hasDoubleDash (collapseDashes l) = false :=
  collapseDashesF_noDD l.length l (Nat.le_refl _)

/-- One ReplaceAll pass introduces no new characters. -/
theorem mem_replaceDoubleDash (l : List Char) (x : Char) (h : x ∈ replaceDoubleDash l) :
    x ∈ l := by
  induction l using replaceDoubleDash.induct with
  | case1 rest ih =>
    rw [replaceDoubleDash] at h
    rcases List.mem_cons.mp h with rfl | h'
    · simp
    · simp [ih h']
  | case2 c rest hne ih =>
    rw [replaceDoubleDash.eq_def] at h
    split at h
    · next rest1 heq =>
      obtain ⟨hc, hr⟩ := List.cons.inj heq
      exact absurd trivial (fun _ => hne rest1 hc hr)
    · next y rest1 heq =>
      obtain ⟨hy, hr⟩ := List.cons.inj heq
      subst hy; subst hr
      rcases List.mem_cons.mp h with rfl | h'
      · simp
      · simp [ih h']
    · next heq => simp at heq
  | case3 => simp [replaceDoubleDash] at h

/-- The collapse loop introduces no new characters. -/
theorem mem_collapseDashesF : ∀ (fuel : Nat) (l : List Char) (x : Char),
    x ∈ collapseDashesF fuel l → x ∈ l := by
  intro fuel
  induction fuel with
  | zero => intro l x h; exact h
  | succ n ih =>
    intro l x h
    rw [collapseDashesF] at h
    split at h
    · exact mem_replaceDoubleDash l x (ih _ x h)
    · exact h

/-- `dropWhile` introduces no new characters. -/
theorem mem_dropWhile {p : Char → Bool} : ∀ (l : List Char) (x : Char),
    x ∈ l.dropWhile p → x ∈ l := by
  intro l
  induction l with
  | nil => intro x h; exact h
  | cons c rest ih =>
    intro x h
    rw [List.dropWhile] at h
    split at h
    · exact List.mem_cons.mpr (Or.inr (ih x h))
    · exact h

/-- Trimming the trailing dashes leaves an initial segment of the list. -/
theorem dropTrailingDashes_append : ∀ l : List Char, ∃ t, dropTrailingDashes l ++ t = l := by
  intro l
  induction l with
  | nil => exact ⟨[], rfl⟩
  | cons c rest ih =>
    rw [dropTrailingDashes]
    cases h : dropTrailingDashes rest with
    | nil =>
      obtain ⟨t, ht⟩ := ih
      rw [h] at ht
      have ht' : t = rest := by simpa using ht
      by_cases hc : c = '-'
      · exact ⟨c :: t, by simp [hc, ht']⟩
      · exact ⟨t, by simp [hc, ht']⟩
    | cons r0 rt =>
      obtain ⟨t, ht⟩ := ih
      rw [h] at ht
      exact ⟨t, by simp [ht]⟩

/-- Trimming trailing dashes introduces no new characters. -/
theorem mem_dropTrailingDashes (l : List Char) (x : Char) (h : x ∈ dropTrailingDashes l) :
    x ∈ l := by
  obtain ⟨t, ht⟩ := dropTrailingDashes_append l
  rw [← ht]
  exact List.mem_append_left t h

/-- Trimming trailing dashes never lengthens the list. -/
theorem length_dropTrailingDashes (l : List Char) :
    (dropTrailingDashes l).length ≤ l.length := by
  obtain ⟨t, ht⟩ := dropTrailingDashes_append l
  calc (dropTrailingDashes l).length ≤ (dropTrailingDashes l ++ t).length := by
        simp
    _ = l.length := by rw [ht]

/-- Trimming trailing dashes cannot create a double dash. -/
theorem noDD_dropTrailingDashes (l : List Char) (h : hasDoubleDash l = false) :
    hasDoubleDash (dropTrailingDashes l) = false := by
  cases hd : hasDoubleDash (dropTrailingDashes l) with
  | false => rfl
  | true =>
    obtain ⟨t, ht⟩ := dropTrailingDashes_append l
    have := hasDoubleDash_append_left _ t hd
    rw [ht, h] at this
    exact this.symm ▸ rfl

/-- After trimming trailing dashes, the last character is not a dash. -/
theorem getLast?_dropTrailingDashes : ∀ l : List Char,
    (dropTrailingDashes l).getLast? ≠ some '-' := by
  intro l
  induction l with
  | nil => simp [dropTrailingDashes]
  | cons c rest ih =>
    rw [dropTrailingDashes]
    cases h : dropTrailingDashes rest with
    | nil =>
      by_cases hc : c = '-'
      · simp [hc]
      · simp [hc]
    | cons r0 rt =>
      rw [h] at ih
      simpa [List.getLast?_cons_cons] using ih

/-- Trimming trailing dashes keeps a non-dash head in place. -/
theorem head_dropTrailingDashes (c : Char) (rest : List Char) (hc : ¬c = '-') :
    ∃ t, dropTrailingDashes (c :: rest) = c :: t := by
  rw [dropTrailingDashes]
  cases h : dropTrailingDashes rest with
  | nil => exact ⟨[], by simp [hc]⟩
  | cons r0 rt => exact ⟨r0 :: rt, by simp⟩

/-- After dropping the leading dashes, the head is not a dash. -/
theorem head?_dropWhile_dash : ∀ (l : List Char) (c : Char),
    (l.dropWhile (fun x => x = '-')).head? = some c → ¬c = '-' := by
  intro l
  induction l with
  | nil => intro c h; simp [List.dropWhile] at h
  | cons a rest ih =>
    intro c h
    rw [List.dropWhile] at h
    split at h
    · exact ih c h
    · next hd =>
      simp only [List.head?_cons, Option.some.injEq] at h
      subst h
      simpa using hd

/-- `toBytesBE k` produces exactly `k` bytes. -/
theorem toBytesBE_length : ∀ (k n : Nat), (toBytesBE k n).length = k := by
  intro k
  induction k with
  | zero => intro n; rfl
  | succ m ih => intro n; simp [toBytesBE, ih]

/-- A SHA-256 digest is 32 bytes. -/
theorem sha256_length (msg : List Nat) : (sha256 msg).length = 32 := by
  simp [sha256, toBytesBE_length]

/-- Hex encoding doubles the byte count. -/
theorem hexEncode_length : ∀ bs : List Nat, (hexEncode bs).length = 2 * bs.length := by
  intro bs
  induction bs with
  | nil => rfl
  | cons b rest ih => simp [hexEncode, ih]; omega

/-- The truncation suffix is 8 hex characters. -/
theorem hashSuffix_length (lowered : List Char) : (hashSuffix lowered).length = 8 := by
  rw [hashSuffix, hexEncode_length, List.length_take, sha256_length]
  rfl

/-- A masked nibble hex-encodes to a lowercase alphanumeric, never a dash. -/
theorem hexDigitChar_and15 (n : Nat) :
    isNameChar (hexDigitChar (n &&& 15)) = true ∧ hexDigitChar (n &&& 15) ≠ '-' := by
  have hb : n &&& 15 < 16 := Nat.lt_succ_of_le (Nat.and_le_right)
  have : ∀ m, m < 16 → isNameChar (hexDigitChar m) = true ∧ hexDigitChar m ≠ '-' := by decide
  exact this _ hb

/-- Every character of a hex encoding is a lowercase alphanumeric, never a
dash. -/
theorem mem_hexEncode : ∀ (bs : List Nat) (c : Char), c ∈ hexEncode bs →
    isNameChar c = true ∧ c ≠ '-' := by
  intro bs
  induction bs with
  | nil => intro c h; simp [hexEncode] at h
  | cons b rest ih =>
    intro c h
    rw [hexEncode] at h
    rcases List.mem_cons.mp h with rfl | h'
    · exact hexDigitChar_and15 _
    · rcases List.mem_cons.mp h' with rfl | h''
      · exact hexDigitChar_and15 _
      · exact ih c h''

/-- The character-mapping pass emits only `[a-z0-9-]` characters. -/
theorem mem_map_sanitizeChar (l : List Char) (c : Char) (h : c ∈ l.map sanitizeChar) :
    isNameChar c = true := by
  obtain ⟨x, _, hx⟩ := List.mem_map.mp h
  rw [← hx, sanitizeChar]
  split
  · next h' => exact h'
  · decide

/-- `dropWhile` cannot create a double dash. -/
theorem hasDoubleDash_dropWhile (l : List Char) (p : Char → Bool)
    (h : hasDoubleDash (l.dropWhile p) = true) : hasDoubleDash l = true := by
  induction l with
  | nil => exact h
  | cons c rest ih =>
    rw [List.dropWhile] at h
    split at h
    · exact hasDoubleDash_cons c rest (ih h)
    · exact h

/-- The sanitized-and-trimmed string uses only `[a-z0-9-]` characters. -/
theorem mem_sanitizeTrimmed (lw : List Char) (c : Char) (h : c ∈ sanitizeTrimmed lw) :
    isNameChar c = true := by
  rw [sanitizeTrimmed, trimDashes] at h
  exact mem_map_sanitizeChar lw c
    (mem_collapseDashesF _ _ c (mem_dropWhile _ c (mem_dropTrailingDashes _ c h)))

/-- The sanitized-and-trimmed string has no double dash. -/
theorem noDD_sanitizeTrimmed (lw : List Char) :
    hasDoubleDash (sanitizeTrimmed lw) = false := by
  rw [sanitizeTrimmed, trimDashes]
  refine noDD_dropTrailingDashes _ ?_
  cases hd : hasDoubleDash ((collapseDashes (lw.map sanitizeChar)).dropWhile (fun x => x = '-')) with
  | false => rfl
  | true =>
    have := hasDoubleDash_dropWhile _ _ hd
    rw [collapseDashes_noDD] at this
    exact this.symm ▸ rfl

/-- The sanitized-and-trimmed string does not end in a dash. -/
theorem getLast?_sanitizeTrimmed (lw : List Char) :
    (sanitizeTrimmed lw).getLast? ≠ some '-' := getLast?_dropTrailingDashes _

/-- The sanitized-and-trimmed string does not start with a dash. -/
theorem head?_sanitizeTrimmed (lw : List Char) (c : Char)
    (h : (sanitizeTrimmed lw).head? = some c) : ¬c = '-' := by
  rw [sanitizeTrimmed, trimDashes] at h
  obtain ⟨t, ht⟩ := dropTrailingDashes_append
    ((collapseDashes (lw.map sanitizeChar)).dropWhile (fun x => x = '-'))
  cases hdt : dropTrailingDashes
      ((collapseDashes (lw.map sanitizeChar)).dropWhile (fun x => x = '-')) with
  | nil => rw [hdt] at h; cases h
  | cons a t' =>
    rw [hdt] at h ht
    have hc : c = a := by simpa using h.symm
    subst hc
    refine head?_dropWhile_dash (collapseDashes (lw.map sanitizeChar)) c ?_
    rw [← ht]
    rfl

/-- A dash-free list has no double dash. -/
theorem noDash_noDD : ∀ l : List Char, (∀ c ∈ l, ¬c = '-') → hasDoubleDash l = false := by
  intro l
  induction l using hasDoubleDash.induct with
  | case1 rest =>
    intro hall
    exact absurd rfl (hall '-' (by simp))
  | case2 c rest hne ih =>
    intro hall
    rw [hasDoubleDash.eq_def]
    split
    · next rest1 heq =>
      obtain ⟨hc, hr⟩ := List.cons.inj heq
      exact absurd trivial (fun _ => hne rest1 hc hr)
    · next x rest1 heq =>
      obtain ⟨hx, hr⟩ := List.cons.inj heq
      subst hx; subst hr
      exact ih (fun d hd => hall d (List.mem_cons.mpr (Or.inr hd)))
    · next heq => simp at heq
  | case3 => intro _; rfl

/-- A single dash before a dash-free list makes no double dash. -/
theorem noDD_dash_cons (s : List Char) (hs : ∀ c ∈ s, ¬c = '-') :
    hasDoubleDash ('-' :: s) = false := by
  cases s with
  | nil => rfl
  | cons d s' =>
    have hd : ¬d = '-' := hs d (by simp)
    rw [hasDoubleDash.eq_def]
    split
    · next rest1 heq =>
      exact absurd (List.cons.inj (List.cons.inj heq).2).1 hd
    · next x rest1 heq =>
      obtain ⟨-, hr⟩ := List.cons.inj heq
      subst hr
      exact noDash_noDD _ hs
    · next heq => simp at heq

/-- Joining a double-dash-free list that does not end in a dash, a single
dash, and a dash-free list yields no double dash. -/
theorem noDD_append_mid : ∀ (a : List Char), hasDoubleDash a = false →
    a.getLast? ≠ some '-' → ∀ (s : List Char), (∀ c ∈ s, ¬c = '-') →
    hasDoubleDash (a ++ '-' :: s) = false := by
  intro a
  induction a with
  | nil =>
    intro _ _ s hs
    exact noDD_dash_cons s hs
  | cons c a' ih =>
    intro ha hlast s hs
    cases a' with
    | nil =>
      have hc : ¬c = '-' := by simpa using hlast
      rw [List.cons_append, List.nil_append, hasDoubleDash.eq_def]
      split
      · next rest1 heq =>
        exact absurd (List.cons.inj heq).1 hc
      · next x rest1 heq =>
        obtain ⟨-, hr⟩ := List.cons.inj heq
        subst hr
        exact noDD_dash_cons s hs
      · next heq => simp at heq
    | cons d a'' =>
      have ha' : hasDoubleDash (d :: a'') = false := hasDoubleDash_of_cons _ _ ha
      have hlast' : (d :: a'').getLast? ≠ some '-' := by
        rwa [List.getLast?_cons_cons] at hlast
      have hcd : ¬(c = '-' ∧ d = '-') := by
        rintro ⟨rfl, rfl⟩
        exact absurd ha (by rw [show hasDoubleDash ('-' :: '-' :: a'') = true from rfl]; simp)
      rw [List.cons_append, hasDoubleDash.eq_def]
      split
      · next rest1 heq =>
        obtain ⟨hc, hr⟩ := List.cons.inj heq
        have hd : d = '-' := by
          have := (List.cons.inj hr).1
          simpa using this
        exact absurd ⟨hc, hd⟩ hcd
      · next x rest1 heq =>
        obtain ⟨-, hr⟩ := List.cons.inj heq
        subst hr
        exact ih ha' hlast' s hs
      · next heq => simp at heq

/-- The no-truncation branch of `sanitizeName`. -/
theorem sanitizeChars_short (name : List Char)
    (h : (sanitizeTrimmed (name.map asciiToLower)).length ≤ maxLabelLen) :
    sanitizeChars name = sanitizeTrimmed (name.map asciiToLower) := by
  rw [sanitizeChars]
  simp [h]

/-- The truncation branch of `sanitizeName`. -/
theorem sanitizeChars_long (name : List Char)
    (h : ¬(sanitizeTrimmed (name.map asciiToLower)).length ≤ maxLabelLen) :
    sanitizeChars name =
      trimRightDashes ((sanitizeTrimmed (name.map asciiToLower)).take
        (maxLabelLen - (hashSuffix (name.map asciiToLower)).length - 1)) ++
      '-' :: hashSuffix (name.map asciiToLower) := by
  rw [sanitizeChars]
  simp [h]

/-- A prefix of the sanitized-and-trimmed string has no double dash. -/
theorem noDD_take_sanitizeTrimmed (lw : List Char) (k : Nat) :
    hasDoubleDash ((sanitizeTrimmed lw).take k) = false := by
  cases hd : hasDoubleDash ((sanitizeTrimmed lw).take k) with
  | false => rfl
  | true =>
    have h1 : hasDoubleDash ((sanitizeTrimmed lw).take k ++ (sanitizeTrimmed lw).drop k) = true :=
      hasDoubleDash_append_left _ _ hd
    rw [List.take_append_drop, noDD_sanitizeTrimmed] at h1
    exact h1.symm ▸ rfl

/-- **C8.**  For every input string the name deriver returns at most 63
characters, all in `[a-z0-9-]`, with no repeated dash and no leading or
trailing dash (the observable effect of lowercasing, out-of-charset mapping,
dash collapsing and edge trimming); an input that sanitizes to the empty
string yields the empty string. -/
theorem sanitize_name_shape (s : String) :
    (sanitizeName s).length ≤ maxLabelLen ∧
    (∀ c ∈ (sanitizeName s).data, isNameChar c = true) ∧
    hasDoubleDash (sanitizeName s).data = false ∧
    (sanitizeName s).data.head? ≠ some '-' ∧
    (sanitizeName s).data.getLast? ≠ some '-' ∧
    (sanitizeTrimmed (s.data.map asciiToLower) = [] → sanitizeName s = "") := by
  have hdata : (sanitizeName s).data = sanitizeChars s.data := rfl
  have hlen : (sanitizeName s).length = (sanitizeChars s.data).length := rfl
  by_cases h : (sanitizeTrimmed (s.data.map asciiToLower)).length ≤ maxLabelLen
  · rw [hlen, hdata, sanitizeChars_short s.data h]
    refine ⟨h, fun c hc => mem_sanitizeTrimmed _ c hc, noDD_sanitizeTrimmed _,
      fun hh => head?_sanitizeTrimmed _ '-' hh rfl, getLast?_sanitizeTrimmed _, fun he => ?_⟩
    show String.mk (sanitizeChars s.data) = ""
    rw [sanitizeChars_short s.data h, he]
  · rw [hlen, hdata, sanitizeChars_long s.data h]
    have hS : (hashSuffix (s.data.map asciiToLower)).length = 8 := hashSuffix_length _
    have hnoDashS : ∀ c ∈ hashSuffix (s.data.map asciiToLower), ¬c = '-' := by
      intro c hc
      exact (mem_hexEncode _ c hc).2
    have hvalidS : ∀ c ∈ hashSuffix (s.data.map asciiToLower), isNameChar c = true := by
      intro c hc
      exact (mem_hexEncode _ c hc).1
    have hAnoDD : hasDoubleDash (trimRightDashes ((sanitizeTrimmed (s.data.map asciiToLower)).take
        (maxLabelLen - (hashSuffix (s.data.map asciiToLower)).length - 1))) = false :=
      noDD_dropTrailingDashes _ (noDD_take_sanitizeTrimmed _ _)
    have hAlast : (trimRightDashes ((sanitizeTrimmed (s.data.map asciiToLower)).take
        (maxLabelLen - (hashSuffix (s.data.map asciiToLower)).length - 1))).getLast? ≠ some '-' :=
      getLast?_dropTrailingDashes _
    have hAlen : (trimRightDashes ((sanitizeTrimmed (s.data.map asciiToLower)).take
        (maxLabelLen - (hashSuffix (s.data.map asciiToLower)).length - 1))).length ≤
        maxLabelLen - (hashSuffix (s.data.map asciiToLower)).length - 1 := by
      calc _ ≤ ((sanitizeTrimmed (s.data.map asciiToLower)).take
            (maxLabelLen - (hashSuffix (s.data.map asciiToLower)).length - 1)).length :=
          length_dropTrailingDashes _
        _ ≤ maxLabelLen - (hashSuffix (s.data.map asciiToLower)).length - 1 := by
          rw [List.length_take]
          exact Nat.min_le_left _ _
    refine ⟨?_, ?_, ?_, ?_, ?_, ?_⟩
    · rw [List.length_append, List.length_cons, hS]
      rw [hS] at hAlen
      simp only [maxLabelLen] at hAlen ⊢
      omega
    · intro c hc
      rcases List.mem_append.mp hc with hc | hc
      · exact mem_sanitizeTrimmed _ c
          (List.take_subset _ _ (mem_dropTrailingDashes _ c hc))
      · rcases List.mem_cons.mp hc with rfl | hc
        · decide
        · exact hvalidS c hc
    · exact noDD_append_mid _ hAnoDD hAlast _ hnoDashS
    · cases hst : sanitizeTrimmed (s.data.map asciiToLower) with
      | nil => rw [hst] at h; simp [maxLabelLen] at h
      | cons c0 t0 =>
        have hc0 : ¬c0 = '-' := head?_sanitizeTrimmed _ c0 (by rw [hst]; rfl)
        have hk : maxLabelLen - (hashSuffix (s.data.map asciiToLower)).length - 1 = 54 := by
          rw [hS]
          rfl
        rw [hk]
        have : (c0 :: t0).take 54 = c0 :: t0.take 53 := rfl
        rw [this, trimRightDashes]
        obtain ⟨t, ht⟩ := head_dropTrailingDashes c0 (t0.take 53) hc0
        rw [ht]
        simp [hc0]
    · intro hlasteq
      cases hSs : hashSuffix (s.data.map asciiToLower) with
      | nil => rw [hSs] at hS; cases hS
      | cons s0 st =>
        rw [hSs, List.getLast?_append, List.getLast?_cons_cons] at hlasteq
        cases hgl : (s0 :: st).getLast? with
        | none => simp at hgl
        | some x =>
          rw [hgl] at hlasteq
          have hx : x = '-' := by simpa using hlasteq
          have hmem : x ∈ s0 :: st := by
            obtain ⟨hne, hx2⟩ := List.mem_getLast?_eq_getLast
              (l := s0 :: st) (x := x) (by simp [Option.mem_def, hgl])
            rw [hx2]
            exact List.getLast_mem hne
          rw [← hSs] at hmem
          exact hnoDashS x hmem hx
    · intro he
      rw [he] at h
      simp [maxLabelLen] at h

/-- 63 `a`s then an uppercase `X`: differs from [[c9y]] only past the
truncation boundary. -/
def c9x : String := String.mk (List.replicate 63 'a' ++ ['X'])

/-- 63 `a`s then a lowercase `x`. -/
def c9y : String := String.mk (List.replicate 63 'a' ++ ['x'])

/-- **C9 counterexample.**  Two distinct inputs that agree on their first 63
characters (differing only past the truncation boundary) and both reach the
truncation branch, yet sanitize to the identical output: the digest is taken
of the *lowercased* pre-truncation string, so a case-only difference past the
boundary is erased before hashing. -/
theorem sanitize_truncation_case_collision :
    c9x ≠ c9y ∧
    c9x.data.take maxLabelLen = c9y.data.take maxLabelLen ∧
    maxLabelLen < (sanitizeTrimmed (c9x.data.map asciiToLower)).length ∧
    maxLabelLen < (sanitizeTrimmed (c9y.data.map asciiToLower)).length ∧
    sanitizeName c9x = sanitizeName c9y := by
  refine ⟨by decide, by decide, by decide, by decide, ?_⟩
  have h : c9x.data.map asciiToLower = c9y.data.map asciiToLower := by decide
  show String.mk (sanitizeChars c9x.data) = String.mk (sanitizeChars c9y.data)
  unfold sanitizeChars
  rw [h]

/-- **C9 (amended).**  The name deriver is deterministic, and a result over
63 characters is truncated with an appended 8-hex-character suffix derived
from the SHA-256 digest of the lowercased pre-truncation string; two long
inputs diverge whenever their digest-derived suffixes differ — but inputs
whose lowercased forms coincide (e.g. differing only in letter case past the
boundary) share one output. -/
theorem sanitize_deterministic_and_suffix_separates :
    (∀ s t : String, s = t → sanitizeName s = sanitizeName t) ∧
    (∀ x : String, maxLabelLen < (sanitizeTrimmed (x.data.map asciiToLower)).length →
      (hashSuffix (x.data.map asciiToLower)).length = 8) ∧
    (∀ x y : String,
      maxLabelLen < (sanitizeTrimmed (x.data.map asciiToLower)).length →
      maxLabelLen < (sanitizeTrimmed (y.data.map asciiToLower)).length →
      hashSuffix (x.data.map asciiToLower) ≠ hashSuffix (y.data.map asciiToLower) →
      sanitizeName x ≠ sanitizeName y) := by
  refine ⟨fun s t h => h ▸ rfl, fun x _ => hashSuffix_length _, ?_⟩
  intro x y hx hy hs heq
  have hx' : ¬(sanitizeTrimmed (x.data.map asciiToLower)).length ≤ maxLabelLen :=
    Nat.not_le.mpr hx
  have hy' : ¬(sanitizeTrimmed (y.data.map asciiToLower)).length ≤ maxLabelLen :=
    Nat.not_le.mpr hy
  have hdx : sanitizeChars x.data = sanitizeChars y.data :=
    congrArg String.data heq
  rw [sanitizeChars_long x.data hx', sanitizeChars_long y.data hy'] at hdx
  have hlen : ('-' :: hashSuffix (x.data.map asciiToLower)).length =
      ('-' :: hashSuffix (y.data.map asciiToLower)).length := by
    simp [hashSuffix_length]
  obtain ⟨-, h2⟩ := List.append_inj' hdx hlen
  exact hs (List.cons.inj h2).2

/-- **C8 witness.**  The all-dots input sanitizes to the empty string. -/
theorem sanitize_name_shape_witness :
    sanitizeTrimmed ("...".data.map asciiToLower) = [] ∧ sanitizeName "..." = "" :=
  ⟨by decide, (sanitize_name_shape "...").2.2.2.2.2 (by decide)⟩

/-- 64 `a`s: a truncation-regime input. -/
def c9wx : String := String.mk (List.replicate 64 'a')

/-- 64 `b`s: a truncation-regime input with a different digest. -/
def c9wy : String := String.mk (List.replicate 64 'b')

set_option maxRecDepth 20000 in
/-- **C9 witness.**  Determinism at a concrete input, the 8-character suffix
of a concrete long input, and two concrete long inputs with different
digest-derived suffixes mapping to different outputs. -/
theorem sanitize_deterministic_and_suffix_separates_witness :
    sanitizeName "abc" = sanitizeName "abc" ∧
    (hashSuffix (c9wx.data.map asciiToLower)).length = 8 ∧
    sanitizeName c9wx ≠ sanitizeName c9wy :=
  ⟨sanitize_deterministic_and_suffix_separates.1 "abc" "abc" rfl,
   sanitize_deterministic_and_suffix_separates.2.1 c9wx (by decide),
   sanitize_deterministic_and_suffix_separates.2.2 c9wx c9wy (by decide) (by decide) (by decide)⟩

end FlyTunnel
